import Mathlib

set_option maxHeartbeats 1600000

/-!
Verification development for the advanced-chat generate task pipeline
(api/core/app/apps/advanced_chat/generate_task_pipeline.py).

The pipeline consumes an ordered queue of generation events and produces
either a streaming sequence of protocol frames or one aggregated blocking
response, persisting the final message at the terminal event.

External collaborators that are not part of the translated file (queue
manager, ORM models, moderation engine, annotation service, enums) are
modelled from the specification at their interface boundary; each such
definition is marked in its doc comment.
-/

namespace Dify

/-- Invocation channels. Modelled from the spec: the InvokeFrom enum module is
not under src/; the privileged channels are the debugger and the direct
service API, the others are end-user channels. -/
inductive InvokeFrom where
  | serviceApi
  | webApp
  | explorer
  | debugger
deriving DecidableEq, Repr

/-- Usage record carried in node outputs and written to the message at save
time. Modelled from the spec: core.model_runtime.entities.llm_entities.LLMUsage
is not under src/; prices are opaque numerals here. -/
structure LLMUsage where
  prompt_tokens : Nat := 0
  prompt_unit_price : Nat := 0
  prompt_price_unit : Nat := 0
  completion_tokens : Nat := 0
  completion_unit_price : Nat := 0
  completion_price_unit : Nat := 0
  total_price : Nat := 0
  currency : String := "USD"
deriving DecidableEq, Repr

/-- Full retriever-resource shape: the five public fields plus internal ones
(the projection for unprivileged callers keeps only the five public fields). -/
structure RetrieverResource where
  segment_id : String
  position : Nat
  document_name : String
  score : Nat
  content : String
  dataset_id : String := ""
  document_id : String := ""
deriving DecidableEq, Repr

/-- The reduced public shape produced for unprivileged callers in
_get_response_metadata: exactly segment_id, position, document_name, score,
content. -/
structure ProjectedResource where
  segment_id : String
  position : Nat
  document_name : String
  score : Nat
  content : String
deriving DecidableEq, Repr

/-- The five-field projection applied to each resource for unprivileged
callers (generate_task_pipeline.py lines 542-549). -/
def projectResource (r : RetrieverResource) : ProjectedResource :=
  { segment_id := r.segment_id
    position := r.position
    document_name := r.document_name
    score := r.score
    content := r.content }

/-- Account attached to an annotation. Modelled from the spec: the Account
model is not under src/; only the name is read. -/
structure AccountRec where
  name : String
deriving DecidableEq, Repr

/-- Annotation returned by AppAnnotationService.get_annotation_by_id.
Modelled from the spec: the annotation service is not under src/. -/
structure AnnotationRec where
  id : String
  account_id : String
  account : Option AccountRec
  content : String
deriving DecidableEq, Repr

/-- The dict stored under metadata.annotation_reply (lines 105-111/312-318). -/
structure AnnotationReplyMeta where
  id : String
  account_id : String
  account_name : String
deriving DecidableEq, Repr

/-- Builds the annotation_reply metadata entry; a missing account yields the
fallback name, as in the source. -/
def mkAnnotationReplyMeta (a : AnnotationRec) : AnnotationReplyMeta :=
  { id := a.id
    account_id := a.account_id
    account_name := match a.account with
| some acc => acc.name
| none => "Dify user" }

/-- TaskState.metadata: a dict whose possible keys are retriever_resources,
annotation_reply and usage. A `none` field means the key is absent; for usage
the inner Option distinguishes an empty usage dict (inner `none`) from a
populated one, since _save_message tests the value for truthiness while
_get_response_metadata only needs the key to exist. -/
structure TSMetadata where
  retriever_resources : Option (List RetrieverResource) := none
  annotation_reply : Option AnnotationReplyMeta := none
  usage : Option (Option LLMUsage) := none
deriving DecidableEq, Repr

/-- Truthiness of the metadata dict (`if self._task_state.metadata:`): true
iff at least one key is present. -/
def TSMetadata.nonempty (m : TSMetadata) : Bool :=
  m.retriever_resources.isSome || m.annotation_reply.isSome || m.usage.isSome

/-- TaskState (generate_task_pipeline.py lines 43-50). -/
structure TaskState where
  answer : String := ""
  metadata : TSMetadata := {}
  usage : LLMUsage := {}
  workflow_run_id : Option String := none
deriving DecidableEq, Repr

/-- Outputs mapping of a workflow run; only the text key is read
(`outputs.get('text', '')`). Modelled from the spec: models/workflow.py is not
under src/; per the spec the run reports `outputs={text: ...}`. -/
structure WFOutputs where
  text : Option String := none
deriving DecidableEq, Repr

/-- WorkflowRun record read through the storage collaborator. Modelled from
the spec: models/workflow.py is not under src/; `outputs_dict` denotes the
parsed form of the stored `outputs` mapping, so both accessors below return
the same mapping in this model. -/
structure WorkflowRun where
  id : String
  workflow_id : String
  created_at : Nat
  status : String
  outputs : WFOutputs
  error : Option String
  elapsed_time : Nat
  total_tokens : Nat
  total_steps : Nat
  finished_at : Nat
deriving DecidableEq, Repr

/-- Parsed outputs column of the run; in this model identical to `outputs`
(modelled from the spec, see `WorkflowRun`). -/
def WorkflowRun.outputs_dict (r : WorkflowRun) : WFOutputs := r.outputs

/-- Outputs mapping of a node execution; only the usage key is read
(`outputs.get('usage', {})`). The `none` case stands for a missing or empty
usage dict. -/
structure NodeOutputs where
  usage : Option LLMUsage := none
deriving DecidableEq, Repr

/-- WorkflowNodeExecution record read through the storage collaborator.
Modelled from the spec: models/workflow.py is not under src/. The *_dict
JSON columns are carried as opaque strings except outputs, whose usage entry
the pipeline consumes. -/
structure WorkflowNodeExecution where
  id : String
  workflow_run_id : String
  node_id : String
  index : Nat
  predecessor_node_id : Option String
  inputs : String
  process_data : String
  outputs : NodeOutputs
  status : String
  node_type : String
  error : Option String
  elapsed_time : Nat
  execution_metadata : String
  created_at : Nat
  finished_at : Nat
deriving DecidableEq, Repr

/-- Message database record: the columns the pipeline touches at save time
plus a representative untouched column (query) and created_at, which the
frames read. Modelled from the spec: models/model.py is not under src/. -/
structure MessageRec where
  id : String
  query : String := ""
  answer : String := ""
  provider_response_latency : Nat := 0
  workflow_run_id : Option String := none
  message_tokens : Nat := 0
  message_unit_price : Nat := 0
  message_price_unit : Nat := 0
  answer_tokens : Nat := 0
  answer_unit_price : Nat := 0
  answer_price_unit : Nat := 0
  total_price : Nat := 0
  currency : String := ""
  created_at : Nat := 0
deriving DecidableEq, Repr

/-- MessageFile database record (fields read by the streaming dispatcher).
Modelled from the spec: models/model.py is not under src/. -/
structure MessageFileRec where
  id : String
  url : String
  type : String
  belongs_to : Option String
deriving DecidableEq, Repr

/-- Internal error causes, mirroring the Python exception classes the
pipeline distinguishes. InvokeAuthorizationError is a subclass of InvokeError;
all classes are flattened to constructors here, with `generic` standing for
any cause outside the known taxonomy. `description` is the optional
description attribute (getattr(e, 'description', None)); plain ValueError has
none. Modelled from the spec: the error class modules are not under src/. -/
inductive Err where
  | invokeAuthorization (msg : String) (description : Option String)
  | invokeError (msg : String) (description : Option String)
  | valueError (msg : String)
  | providerTokenNotInit (msg : String) (description : Option String)
  | quotaExceeded (msg : String) (description : Option String)
  | modelCurrentlyNotSupport (msg : String) (description : Option String)
  | generic (msg : String) (description : Option String)
deriving DecidableEq, Repr

/-- str(e): the exception message. -/
def Err.str : Err → String
  | .invokeAuthorization m _ => m
  | .invokeError m _ => m
  | .valueError m => m
  | .providerTokenNotInit m _ => m
  | .quotaExceeded m _ => m
  | .modelCurrentlyNotSupport m _ => m
  | .generic m _ => m

/-- getattr(e, 'description', None). -/
def Err.descr : Err → Option String
  | .invokeAuthorization _ d => d
  | .invokeError _ d => d
  | .valueError _ => none
  | .providerTokenNotInit _ d => d
  | .quotaExceeded _ d => d
  | .modelCurrentlyNotSupport _ d => d
  | .generic _ d => d

/-- isinstance(e, one of the six known taxonomy classes): everything except a
generic unmatched cause. -/
def Err.inTaxonomy : Err → Bool
  | .generic _ _ => false
  | _ => true

/-- QueueStopEvent.StopBy values used by the pipeline. Modelled from the spec:
the queue entities module is not under src/. -/
inductive StopBy where
  | userManual
  | outputModeration
deriving DecidableEq, Repr

/-- The closed set of queue event variants (core.app.entities.queue_entities).
Modelled from the spec: the queue entities module is not under src/; each
variant carries the payload the pipeline reads. A TextChunk payload may be
None (line 350 of the pipeline checks for it). -/
inductive QueueEvent where
  | error (e : Err)
  | retrieverResources (resources : List RetrieverResource)
  | annotationReply (message_annotation_id : String)
  | workflowStarted (workflow_run_id : String)
  | nodeStarted (workflow_node_execution_id : String)
  | nodeFinished (workflow_node_execution_id : String)
  | stop (stopped_by : StopBy)
  | workflowFinished (workflow_run_id : String)
  | textChunk (chunk_text : Option String)
  | messageReplace (text : String)
  | messageFile (message_file_id : String)
  | ping
deriving DecidableEq, Repr

/-- Terminal events in the sense of the spec glossary: Stop or
WorkflowFinished. -/
def QueueEvent.isTerminalKind : QueueEvent → Bool
  | .stop _ => true
  | .workflowFinished _ => true
  | _ => false

/-- Error events. -/
def QueueEvent.isErrorKind : QueueEvent → Bool
  | .error _ => true
  | _ => false

/-- Events that neither terminate the task nor abort it. -/
def QueueEvent.benign (e : QueueEvent) : Bool :=
  !e.isTerminalKind && !e.isErrorKind

/-- WorkflowRunStatus.SUCCEEDED.value / WorkflowNodeExecutionStatus.SUCCEEDED.
Modelled from the spec: the enum module is not under src/. -/
def succeededStatus : String := "succeeded"

/-- NodeType.LLM.value. Modelled from the spec: the enum module is not under
src/. -/
def llmNodeType : String := "llm"

/-- The storage / service collaborators as read-through maps plus the wall
clock elapsed since task start as observed at save time. Lookups are keyed by
id; a record returned by a query filtered on id carries that id. Modelled
from the spec at the collaborator boundary (section 6 of the spec). -/
structure Env where
  workflowRuns : String → WorkflowRun
  nodeExecs : String → WorkflowNodeExecution
  annotations : String → Option AnnotationRec
  messageFiles : String → MessageFileRec
  messages : String → MessageRec
  signFile : String → String → String
  elapsed : Nat

/-- _get_workflow_run: fetches the run by id (with the mandatory cache expiry,
which the map model renders as always reading the current store). The filter
on id forces the returned record's id to equal the key. -/
def getWorkflowRun (env : Env) (rid : String) : WorkflowRun :=
  { env.workflowRuns rid with id := rid }

/-- _get_workflow_node_execution: fetch by id with cache expiry, as above. -/
def getNodeExec (env : Env) (nid : String) : WorkflowNodeExecution :=
  { env.nodeExecs nid with id := nid }

/-- Output moderation handler state. Modelled from the spec:
core/moderation/output_moderation.py is not under src/. The background
scanning activity is abstracted as the oracle `sched`: the value returned by
the i-th call of should_direct_output (the asynchronous flip is a change in
this schedule); `checks` counts those calls, `finalOutput` is the substitute
answer, `buffer` accumulates appended tokens. -/
structure OutputModerationSt where
  sched : Nat → Bool
  checks : Nat := 0
  finalOutput : String
  buffer : String := ""

/-- should_direct_output(): non-blocking check against the schedule. -/
def shouldDirectOutput (h : OutputModerationSt) : Bool := h.sched h.checks

/-- moderation_completion(completion, public_event): blocking finalize call.
Modelled from the spec: it returns the possibly redacted completion - the
final output when direct output has been triggered, otherwise the completion
itself. -/
def moderationCompletion (h : OutputModerationSt) (completion : String) : String :=
  if h.sched h.checks then h.finalOutput else completion

/-- Calls made on the moderation handler, recorded in order. -/
inductive ModCall where
  | stopThread
  | moderationCompletionCall (completion : String)
  | appendNewToken (t : String)
deriving DecidableEq, Repr

/-- Data sub-object of a workflow_started frame (lines 182-186). -/
structure WorkflowStartedData where
  id : String
  workflow_id : String
  created_at : Nat
deriving DecidableEq, Repr

/-- Data sub-object of a node_started frame (lines 196-203). -/
structure NodeStartedData where
  id : String
  node_id : String
  index : Nat
  predecessor_node_id : Option String
  inputs : String
  created_at : Nat
deriving DecidableEq, Repr

/-- Data sub-object of a node_finished frame (lines 219-233). -/
structure NodeFinishedData where
  id : String
  node_id : String
  index : Nat
  predecessor_node_id : Option String
  inputs : String
  process_data : String
  outputs : NodeOutputs
  status : String
  error : Option String
  elapsed_time : Nat
  execution_metadata : String
  created_at : Nat
  finished_at : Nat
deriving DecidableEq, Repr

/-- Data sub-object of a workflow_finished frame (lines 253-264). -/
structure WorkflowFinishedData where
  id : String
  workflow_id : String
  status : String
  outputs : WFOutputs
  error : Option String
  elapsed_time : Nat
  total_tokens : Nat
  total_steps : Nat
  created_at : Nat
  finished_at : Nat
deriving DecidableEq, Repr

/-- The error envelope rendered by _error_to_stream_response_data. -/
structure ErrorEnvelope where
  event : String
  task_id : String
  message_id : String
  code : String
  message : String
  status : Nat
deriving DecidableEq, Repr

/-- retriever_resources as rendered in response metadata: full objects for
privileged channels, the five-field projection otherwise. -/
inductive RenderedRR where
  | full (rs : List RetrieverResource)
  | projected (rs : List ProjectedResource)
deriving DecidableEq, Repr

/-- Metadata dict rendered by _get_response_metadata. -/
structure RenderedMetadata where
  retriever_resources : Option RenderedRR := none
  annotation_reply : Option AnnotationReplyMeta := none
  usage : Option (Option LLMUsage) := none
deriving DecidableEq, Repr

/-- Protocol frames emitted on the streaming wire ("data: <json>" units and
the raw ping keep-alive), with the JSON envelope fields as payload. -/
inductive Frame where
  | errorFrame (envl : ErrorEnvelope)
  | workflowStartedFrame (task_id workflow_run_id : String) (data : WorkflowStartedData)
  | nodeStartedFrame (task_id workflow_run_id : String) (data : NodeStartedData)
  | nodeFinishedFrame (task_id workflow_run_id : String) (data : NodeFinishedData)
  | workflowFinishedFrame (task_id workflow_run_id : String) (data : WorkflowFinishedData)
  | messageFrame (id task_id message_id conversation_id answer : String) (created_at : Nat)
  | messageReplaceFrame (task_id message_id conversation_id answer : String) (created_at : Nat)
  | messageEndFrame (task_id id message_id conversation_id : String) (metadata : Option RenderedMetadata)
  | messageFileFrame (conversation_id id type belongs_to url : String)
  | pingFrame
deriving DecidableEq, Repr

/-- True for every frame except an error frame. -/
def Frame.notError : Frame → Bool
  | .errorFrame _ => false
  | _ => true

/-- invoke_from in [InvokeFrom.DEBUGGER, InvokeFrom.SERVICE_API]. -/
def isPrivileged : InvokeFrom → Bool
  | .debugger => true
  | .serviceApi => true
  | _ => false

/-- _get_response_metadata (lines 529-559): retriever_resources pass through
in full for privileged channels and are projected to the five public fields
otherwise; annotation_reply is included only for privileged channels; for
privileged channels metadata['usage'] is read unconditionally, so a missing
usage key raises KeyError (the Except.error case). -/
def getResponseMetadata (md : TSMetadata) (f : InvokeFrom) : Except Unit RenderedMetadata :=
  let rr : Option RenderedRR :=
    md.retriever_resources.map (fun rs =>
      if isPrivileged f then .full rs else .projected (rs.map projectResource))
  let ar : Option AnnotationReplyMeta :=
    if isPrivileged f then md.annotation_reply else none
  if isPrivileged f then
    match md.usage with
    | none => .error ()
    | some u => .ok { retriever_resources := rr, annotation_reply := ar, usage := some u }
  else
    .ok { retriever_resources := rr, annotation_reply := ar, usage := none }

/-- _handle_error (lines 471-485): an authorization failure is replaced by a
fixed-credentials error; invocation errors and validation errors pass through
verbatim; every other cause is wrapped as a plain Exception carrying its
description (or str) as message. -/
def handleError : Err → Err
  | .invokeAuthorization _ _ => .invokeAuthorization "Incorrect API key provided" none
  | .invokeError m d => .invokeError m d
  | .valueError m => .valueError m
  | e => .generic (match e.descr with
| some d => d
| none => e.str) none

/-- The fixed message of the internal_server_error envelope. -/
def internalServerErrorMessage : String := "Internal Server Error, please contact support."

/-- The fixed message of the provider_quota_exceeded envelope. -/
def quotaMessage : String :=
  "Your quota for Dify Hosted Model Provider has been exhausted. Please go to Settings -> Model Provider to complete your own provider credentials."

/-- _error_to_stream_response_data (lines 487-527): looks up the exception in
the taxonomy (the flattened classes are disjoint, so last-match-wins over the
dict equals this case split); a matched entry without a fixed message gets the
description-or-str of the cause; an unmatched cause yields the generic
internal_server_error envelope and the cause is logged (second component).
Every envelope carries event "error", the task id and the message id. -/
def errorToStreamResponseData (task_id message_id : String) (e : Err) :
    ErrorEnvelope × Option String :=
  let matched : Option (String × Option String × Nat) :=
    match e with
    | .valueError _ => some ("invalid_param", none, 400)
    | .providerTokenNotInit _ _ => some ("provider_not_initialize", none, 400)
    | .quotaExceeded _ _ => some ("provider_quota_exceeded", some quotaMessage, 400)
    | .modelCurrentlyNotSupport _ _ => some ("model_currently_not_support", none, 400)
    | .invokeError _ _ => some ("completion_request_error", none, 400)
    | .invokeAuthorization _ _ => some ("completion_request_error", none, 400)
    | .generic _ _ => none
  match matched with
  | some (c, fixedMsg, s) =>
    ({ event := "error", task_id := task_id, message_id := message_id, code := c,
       message := fixedMsg.getD (e.descr.getD e.str), status := s }, none)
  | none =>
    ({ event := "error", task_id := task_id, message_id := message_id,
       code := "internal_server_error", message := internalServerErrorMessage,
       status := 500 }, some e.str)

/-- Extension extraction for a message file url (lines 327-333). -/
def fileExtension (url : String) : String :=
  if url.contains '.' then
    let ext := "." ++ ((url.splitOn ".").getLastD "")
    if ext.length > 10 then ".bin" else ext
  else ".bin"

/-- Per-task constants of the pipeline: the generate entity, conversation and
the pre-stream cached message record. -/
structure PipeConfig where
  task_id : String
  invoke_from : InvokeFrom
  entity_conversation_id : Option String
  extras : String
  conversation_id : String
  conversation_mode : String
  message0 : MessageRec
deriving Repr

/-- Payload of the message_was_created notification published at save time. -/
structure MessageCreatedNotification where
  message : MessageRec
  conversation_id : String
  is_first_message : Bool
  extras : String
deriving DecidableEq, Repr

/-- Mutable pipeline state threaded through the dispatch loop, together with
the observable effects accumulated so far: emitted frames, saved message
records (one per _save_message call), published notifications, calls made on
the moderation handler, events the pipeline itself published back onto the
queue, log lines, and abort flags. -/
structure PipeSt where
  taskState : TaskState := {}
  handler : Option OutputModerationSt
  curMessage : MessageRec
  frames : List Frame := []
  saved : List MessageRec := []
  notifications : List MessageCreatedNotification := []
  modTrace : List ModCall := []
  published : List QueueEvent := []
  logs : List String := []
  keyErrored : Bool := false
  outOfFuel : Bool := false

/-- Initial pipeline state: fresh TaskState, the configured moderation
handler, and the cached message record. -/
def initSt (cfg : PipeConfig) (h0 : Option OutputModerationSt) : PipeSt :=
  { handler := h0, curMessage := cfg.message0 }

/-- Response moderation at the terminal event in streaming mode (lines
269-289): stop the background activity, run the blocking finalize on the
current answer, drop the handler and emit a message_replace frame with the
moderated answer. -/
def moderateFinishStream (cfg : PipeConfig) (st : PipeSt) : PipeSt :=
  match st.handler with
  | none => st
  | some h =>
    let a := moderationCompletion h st.taskState.answer
    { st with
      taskState := { st.taskState with answer := a }
      handler := none
      modTrace := st.modTrace ++ [.stopThread, .moderationCompletionCall st.taskState.answer]
      frames := st.frames ++
        [.messageReplaceFrame cfg.task_id st.curMessage.id cfg.conversation_id a
          st.curMessage.created_at] }

/-- Response moderation at the terminal event in blocking mode (lines
132-139): stop the background activity and overwrite the answer with the
finalize result; no frame is emitted and the handler field is left in place. -/
def moderateFinishBlock (st : PipeSt) : PipeSt :=
  match st.handler with
  | none => st
  | some h =>
    let a := moderationCompletion h st.taskState.answer
    { st with
      taskState := { st.taskState with answer := a }
      modTrace := st.modTrace ++ [.stopThread, .moderationCompletionCall st.taskState.answer] }

/-- The message record as written by _save_message (lines 424-441): the
record re-read by id from the store (the query filters on id, so the result
carries that id), with the final answer, the response latency and the
workflow run id set; only when the metadata dict is truthy and its usage
entry is truthy, the token counts, unit prices, total price and currency are
set as well. -/
def savedMessageOf (env : Env) (mid : String) (ts : TaskState) : MessageRec :=
  let m0 := { env.messages mid with id := mid }
  let m1 := { m0 with
    answer := ts.answer
    provider_response_latency := env.elapsed
    workflow_run_id := ts.workflow_run_id }
  let usageTruthy : Option LLMUsage :=
    match ts.metadata.usage with
    | some (some u) => some u
    | _ => none
  match ts.metadata.nonempty, usageTruthy with
  | true, some u =>
    { m1 with
      message_tokens := u.prompt_tokens
      message_unit_price := u.prompt_unit_price
      message_price_unit := u.prompt_price_unit
      answer_tokens := u.completion_tokens
      answer_unit_price := u.completion_unit_price
      answer_price_unit := u.completion_price_unit
      provider_response_latency := env.elapsed
      total_price := u.total_price
      currency := u.currency }
  | _, _ => m1

/-- _save_message (lines 419-451): re-read the message record by id, update
it as in `savedMessageOf`, commit, and publish the message_was_created
notification. The re-read record replaces the cached self._message. -/
def saveMessageSt (env : Env) (cfg : PipeConfig) (st : PipeSt) : PipeSt :=
  let m2 := savedMessageOf env st.curMessage.id st.taskState
  { st with
    curMessage := m2
    saved := st.saved ++ [m2]
    notifications := st.notifications ++
      [{ message := m2
         conversation_id := cfg.conversation_id
         is_first_message := cfg.entity_conversation_id.isNone
         extras := cfg.extras }] }

/-- The message_end emission (lines 294-305): the metadata key is added only
when the metadata dict is truthy, in which case rendering it for a privileged
caller without a usage entry raises KeyError, aborting the generator before
the frame is yielded. -/
def endMessageSt (cfg : PipeConfig) (st : PipeSt) : PipeSt :=
  if st.taskState.metadata.nonempty then
    match getResponseMetadata st.taskState.metadata cfg.invoke_from with
    | .error _ => { st with keyErrored := true }
    | .ok md =>
      { st with frames := st.frames ++
          [.messageEndFrame cfg.task_id st.curMessage.id st.curMessage.id
            cfg.conversation_id (some md)] }
  else
    { st with frames := st.frames ++
        [.messageEndFrame cfg.task_id st.curMessage.id st.curMessage.id
          cfg.conversation_id none] }

/-- The common terminal tail of the streaming dispatcher: moderation
finalization, message persistence, then message_end. -/
def finishStream (env : Env) (cfg : PipeConfig) (st : PipeSt) : PipeSt :=
  endMessageSt cfg (saveMessageSt env cfg (moderateFinishStream cfg st))

/-- Outcome of one streaming dispatch step: continue, continue with events
published back onto the queue, or end the stream (terminal handled, error
frame emitted, or generator aborted). -/
inductive StepOut where
  | next (st : PipeSt)
  | nextPublish (st : PipeSt) (pub : List QueueEvent)
  | done (st : PipeSt)

/-- One iteration of the streaming dispatch loop (_process_stream_response,
lines 163-388), translated branch by branch. -/
def streamStep (env : Env) (cfg : PipeConfig) (st : PipeSt) : QueueEvent → StepOut
  | .error e =>
    let r := errorToStreamResponseData cfg.task_id st.curMessage.id (handleError e)
    .done { st with frames := st.frames ++ [.errorFrame r.1], logs := st.logs ++ r.2.toList }
  | .workflowStarted rid =>
    let run := getWorkflowRun env rid
    .next { st with
      taskState := { st.taskState with workflow_run_id := some run.id }
      frames := st.frames ++
        [.workflowStartedFrame cfg.task_id run.id
          { id := run.id, workflow_id := run.workflow_id, created_at := run.created_at }] }
  | .nodeStarted nid =>
    let ne := getNodeExec env nid
    .next { st with frames := st.frames ++
      [.nodeStartedFrame cfg.task_id ne.workflow_run_id
        { id := ne.id, node_id := ne.node_id, index := ne.index,
          predecessor_node_id := ne.predecessor_node_id, inputs := ne.inputs,
          created_at := ne.created_at }] }
  | .nodeFinished nid =>
    let ne := getNodeExec env nid
    let ts := st.taskState
    let ts' :=
      if ne.status = succeededStatus ∧ ne.node_type = llmNodeType then
        { ts with metadata := { ts.metadata with usage := some ne.outputs.usage } }
      else ts
    .next { st with
      taskState := ts'
      frames := st.frames ++
        [.nodeFinishedFrame cfg.task_id ne.workflow_run_id
          { id := ne.id, node_id := ne.node_id, index := ne.index,
            predecessor_node_id := ne.predecessor_node_id, inputs := ne.inputs,
            process_data := ne.process_data, outputs := ne.outputs,
            status := ne.status, error := ne.error, elapsed_time := ne.elapsed_time,
            execution_metadata := ne.execution_metadata, created_at := ne.created_at,
            finished_at := ne.finished_at }] }
  | .stop _ => .done (finishStream env cfg st)
  | .workflowFinished rid =>
    let run := getWorkflowRun env rid
    if run.status = succeededStatus then
      let st1 := { st with
        taskState := { st.taskState with answer := run.outputs_dict.text.getD "" }
        frames := st.frames ++
          [.workflowFinishedFrame cfg.task_id rid
            { id := run.id, workflow_id := run.workflow_id, status := run.status,
              outputs := run.outputs_dict, error := run.error,
              elapsed_time := run.elapsed_time, total_tokens := run.total_tokens,
              total_steps := run.total_steps, created_at := run.created_at,
              finished_at := run.finished_at }] }
      .done (finishStream env cfg st1)
    else
      let e := Err.valueError ("Run failed: " ++ (run.error.getD "None"))
      let r := errorToStreamResponseData cfg.task_id st.curMessage.id (handleError e)
      .done { st with frames := st.frames ++ [.errorFrame r.1], logs := st.logs ++ r.2.toList }
  | .retrieverResources rs =>
    .next { st with taskState := { st.taskState with
      metadata := { st.taskState.metadata with retriever_resources := some rs } } }
  | .annotationReply aid =>
    match env.annotations aid with
    | none => .next st
    | some a =>
      .next { st with taskState := { st.taskState with
        answer := a.content
        metadata := { st.taskState.metadata with
          annotation_reply := some (mkAnnotationReplyMeta a) } } }
  | .messageFile fid =>
    let mf := env.messageFiles fid
    let url := env.signFile mf.id (fileExtension mf.url)
    .next { st with frames := st.frames ++
      [.messageFileFrame cfg.conversation_id mf.id mf.type (mf.belongs_to.getD "user") url] }
  | .textChunk none => .next st
  | .textChunk (some t) =>
    match st.handler with
    | some h =>
      if shouldDirectOutput h then
        let h' := { h with checks := h.checks + 1 }
        let a := h.finalOutput
        let pub := [QueueEvent.textChunk (some a), QueueEvent.stop .outputModeration]
        .nextPublish { st with
          taskState := { st.taskState with answer := a }
          handler := some h'
          published := st.published ++ pub } pub
      else
        let h' := { h with checks := h.checks + 1, buffer := h.buffer ++ t }
        .next { st with
          taskState := { st.taskState with answer := st.taskState.answer ++ t }
          handler := some h'
          modTrace := st.modTrace ++ [.appendNewToken t]
          frames := st.frames ++
            [.messageFrame st.curMessage.id cfg.task_id st.curMessage.id
              cfg.conversation_id t st.curMessage.created_at] }
    | none =>
      .next { st with
        taskState := { st.taskState with answer := st.taskState.answer ++ t }
        frames := st.frames ++
          [.messageFrame st.curMessage.id cfg.task_id st.curMessage.id
            cfg.conversation_id t st.curMessage.created_at] }
  | .messageReplace t =>
    .next { st with frames := st.frames ++
      [.messageReplaceFrame cfg.task_id st.curMessage.id cfg.conversation_id t
        st.curMessage.created_at] }
  | .ping => .next { st with frames := st.frames ++ [.pingFrame] }

/-- The streaming dispatch loop over the queue delivered by listen(). Events
the dispatcher publishes are appended to the same queue. Modelled from the
spec: the queue manager is not under src/; per section 6 listen() is a
blocking event sequence terminated implicitly by a terminal event, so the
loop ends once a terminal (or error) step reports done, or when the queue is
exhausted. Fuel bounds the recursion; runStream below supplies enough for
every execution considered here, and running out is recorded in the state. -/
def streamLoop (env : Env) (cfg : PipeConfig) :
    Nat → List QueueEvent → PipeSt → PipeSt
  | _, [], st => st
  | 0, _ :: _, st => { st with outOfFuel := true }
  | fuel + 1, e :: rest, st =>
    match streamStep env cfg st e with
    | .next st' => streamLoop env cfg fuel rest st'
    | .nextPublish st' pub => streamLoop env cfg fuel (rest ++ pub) st'
    | .done st' => st'

/-- Run the streaming pipeline on the producer's event sequence. -/
def runStream (env : Env) (cfg : PipeConfig) (h0 : Option OutputModerationSt)
    (es : List QueueEvent) : PipeSt :=
  streamLoop env cfg (2 * es.length + 8) es (initSt cfg h0)

/-- The aggregated blocking response object (lines 144-157): metadata is the
empty dict unless the task metadata is truthy, in which case it is rendered
through the privilege gate. -/
structure BlockResponse where
  event : String
  task_id : String
  id : String
  message_id : String
  conversation_id : String
  mode : String
  answer : String
  metadata : Option RenderedMetadata
  created_at : Nat
deriving DecidableEq, Repr

/-- Outcome of the blocking call: the aggregated response, a raised mapped
exception (error event or failed run), a KeyError raised while rendering
metadata, or falling off the queue without a terminal event. -/
inductive BlockOutcome where
  | ok (r : BlockResponse)
  | raisedErr (e : Err)
  | raisedKeyError
  | exhausted
deriving Repr

/-- Final state of a blocking run: outcome plus accumulated effects. -/
structure BlockResult where
  outcome : BlockOutcome
  state : PipeSt

/-- One step outcome for the blocking dispatcher. -/
inductive BlockStepOut where
  | next (st : PipeSt)
  | finished (r : BlockResponse) (st : PipeSt)
  | raisedErr (e : Err) (st : PipeSt)
  | raisedKeyError (st : PipeSt)

/-- The pipeline state carried by a blocking step outcome. -/
def BlockStepOut.stOf : BlockStepOut → PipeSt
  | .next s => s
  | .finished _ s => s
  | .raisedErr _ s => s
  | .raisedKeyError s => s

/-- The aggregated response built from the post-save state (lines 144-157):
metadata starts as the empty dict (none here) and is overwritten through the
privilege gate only when the task metadata is truthy; rendering may raise
KeyError instead. The response id and created_at come from the re-read
message record. -/
def blockResponseOf (cfg : PipeConfig) (st1 : PipeSt) : BlockStepOut :=
  if st1.taskState.metadata.nonempty then
    match getResponseMetadata st1.taskState.metadata cfg.invoke_from with
    | .error _ => .raisedKeyError { st1 with keyErrored := true }
    | .ok md =>
      .finished
        { event := "message", task_id := cfg.task_id, id := st1.curMessage.id,
          message_id := st1.curMessage.id, conversation_id := cfg.conversation_id,
          mode := cfg.conversation_mode, answer := st1.taskState.answer,
          metadata := some md, created_at := st1.curMessage.created_at } st1
  else
    .finished
      { event := "message", task_id := cfg.task_id, id := st1.curMessage.id,
        message_id := st1.curMessage.id, conversation_id := cfg.conversation_id,
        mode := cfg.conversation_mode, answer := st1.taskState.answer,
        metadata := none, created_at := st1.curMessage.created_at } st1

/-- The terminal tail of the blocking dispatcher (lines 132-159): moderation
finalization, persistence, then the aggregated response. -/
def finishBlock (env : Env) (cfg : PipeConfig) (st : PipeSt) : BlockStepOut :=
  blockResponseOf cfg (saveMessageSt env cfg (moderateFinishBlock st))

/-- One iteration of the blocking dispatch loop (_process_blocking_response,
lines 89-161): only error, retriever-resources, annotation-reply,
workflow-started, node-finished and the terminal events are handled; every
other event (text chunks, message replace, files, pings, node-started)
falls through the final else and is skipped. -/
def blockStep (env : Env) (cfg : PipeConfig) (st : PipeSt) : QueueEvent → BlockStepOut
  | .error e => .raisedErr (handleError e) st
  | .retrieverResources rs =>
    .next { st with taskState := { st.taskState with
      metadata := { st.taskState.metadata with retriever_resources := some rs } } }
  | .annotationReply aid =>
    match env.annotations aid with
    | none => .next st
    | some a =>
      .next { st with taskState := { st.taskState with
        answer := a.content
        metadata := { st.taskState.metadata with
          annotation_reply := some (mkAnnotationReplyMeta a) } } }
  | .workflowStarted rid =>
    .next { st with taskState := { st.taskState with workflow_run_id := some rid } }
  | .nodeFinished nid =>
    let ne := getNodeExec env nid
    let ts := st.taskState
    let ts' :=
      if ne.status = succeededStatus ∧ ne.node_type = llmNodeType then
        { ts with metadata := { ts.metadata with usage := some ne.outputs.usage } }
      else ts
    .next { st with taskState := ts' }
  | .stop _ => finishBlock env cfg st
  | .workflowFinished rid =>
    let run := getWorkflowRun env rid
    if run.status = succeededStatus then
      finishBlock env cfg
        { st with taskState := { st.taskState with answer := run.outputs.text.getD "" } }
    else
      .raisedErr (handleError (.valueError ("Run failed: " ++ (run.error.getD "None")))) st
  | _ => .next st

/-- The blocking dispatch loop: the method returns at the terminal event and
propagates raised exceptions; reaching the end of the queue without a
terminal event returns None. -/
def blockLoop (env : Env) (cfg : PipeConfig) :
    List QueueEvent → PipeSt → BlockResult
  | [], st => { outcome := .exhausted, state := st }
  | e :: rest, st =>
    match blockStep env cfg st e with
    | .next st' => blockLoop env cfg rest st'
    | .finished r st' => { outcome := .ok r, state := st' }
    | .raisedErr err st' => { outcome := .raisedErr err, state := st' }
    | .raisedKeyError st' => { outcome := .raisedKeyError, state := st' }

/-- Run the blocking pipeline on the producer's event sequence. -/
def runBlock (env : Env) (cfg : PipeConfig) (h0 : Option OutputModerationSt)
    (es : List QueueEvent) : BlockResult :=
  blockLoop env cfg es (initSt cfg h0)

/-- Moderation-handler calls that are token appends. -/
def ModCall.isAppend : ModCall → Bool
  | .appendNewToken _ => true
  | _ => false

/-- message_end frames. -/
def Frame.isMessageEnd : Frame → Bool
  | .messageEndFrame _ _ _ _ _ => true
  | _ => false

/-- The final answer of a blocking outcome, when one was returned. -/
def BlockOutcome.answerOf : BlockOutcome → Option String
  | .ok r => some r.answer
  | _ => none

/-- A terminal event that takes the normal finalization path: a Stop event,
or a WorkflowFinished event whose run reports the succeeded status. -/
def TerminalOk (env : Env) (t : QueueEvent) : Prop :=
  (∃ sb, t = QueueEvent.stop sb) ∨
  (∃ rid, t = QueueEvent.workflowFinished rid ∧
    (getWorkflowRun env rid).status = succeededStatus)

/-- A moderation configuration whose direct-output flag never flips. -/
def NeverDirect (h0 : Option OutputModerationSt) : Prop :=
  ∀ h, h0 = some h → ∀ i, h.sched i = false

/-- Simulation relation between a blocking and a streaming dispatch state:
their metadata bags agree and neither handler ever flips to direct output. -/
def SimRel (bs ss : PipeSt) : Prop :=
  bs.taskState.metadata = ss.taskState.metadata ∧
  NeverDirect bs.handler ∧ NeverDirect ss.handler

/-- Concrete workflow run fixture. -/
def run0 : WorkflowRun :=
  { id := "R1", workflow_id := "W1", created_at := 1, status := "succeeded",
    outputs := { text := some "Hello" }, error := none, elapsed_time := 2,
    total_tokens := 15, total_steps := 3, finished_at := 9 }

/-- Concrete node execution fixture: a succeeded LLM node reporting usage. -/
def node0 : WorkflowNodeExecution :=
  { id := "N1", workflow_run_id := "R1", node_id := "A", index := 0,
    predecessor_node_id := none, inputs := "{}", process_data := "{}",
    outputs := { usage := some { prompt_tokens := 10, completion_tokens := 5 } },
    status := "succeeded", node_type := "llm", error := none, elapsed_time := 1,
    execution_metadata := "{}", created_at := 2, finished_at := 3 }

/-- Concrete environment fixture. -/
def env0 : Env :=
  { workflowRuns := fun _ => run0
    nodeExecs := fun _ => node0
    annotations := fun _ => none
    messageFiles := fun i => { id := i, url := "f.png", type := "image", belongs_to := none }
    messages := fun i => { id := i, query := "q0", created_at := 77 }
    signFile := fun i e => "signed/" ++ i ++ e
    elapsed := 5 }

/-- Concrete pipeline configuration fixture (privileged debugger channel). -/
def cfg0 : PipeConfig :=
  { task_id := "T1", invoke_from := .debugger, entity_conversation_id := none,
    extras := "{}", conversation_id := "C1", conversation_mode := "advanced-chat",
    message0 := { id := "M1", query := "q0", created_at := 77 } }

/-- A moderation handler fixture whose direct-output flag never flips. -/
def hNever : OutputModerationSt :=
  { sched := fun _ => false, finalOutput := "[redacted]" }

/-- Concrete retriever resource fixture with all fields populated. -/
def rr0 : RetrieverResource :=
  { segment_id := "s", position := 1, document_name := "d", score := 9,
    content := "c", dataset_id := "ds", document_id := "doc" }

/-- Concrete annotation-reply metadata fixture. -/
def arm0 : AnnotationReplyMeta :=
  { id := "a", account_id := "u", account_name := "n" }

/-- Concrete task metadata fixture with all three keys present. -/
def md0 : TSMetadata :=
  { retriever_resources := some [rr0], annotation_reply := some arm0,
    usage := some (some {}) }

/-- Concrete task metadata fixture that is non-empty but has no usage key. -/
def md1 : TSMetadata :=
  { retriever_resources := some [rr0] }

/-- A moderation handler fixture whose direct-output flag flips true after
the first check, with final output "[redacted]". -/
def hFlip : OutputModerationSt :=
  { sched := fun i => decide (1 ≤ i), finalOutput := "[redacted]" }

/-- A fresh moderation handler whose background scan flips the direct-output
flag true from the k-th check on, with the given final output. -/
def flipHandler (k : Nat) (F : String) : OutputModerationSt :=
  { sched := fun i => decide (k ≤ i), finalOutput := F }

/-- The queue events corresponding to a list of text chunks. -/
def ChunkEvents (cs : List String) : List QueueEvent :=
  cs.map fun s => QueueEvent.textChunk (some s)

/-- The pipeline state carried by a streaming step outcome. -/
def StepOut.stOf : StepOut → PipeSt
  | .next s => s
  | .nextPublish s _ => s
  | .done s => s

/-- The state evolution of the streaming dispatcher over a list of events,
ignoring loop control (used to name the state reached after a clean queue
segment). -/
def streamFold (env : Env) (cfg : PipeConfig) (es : List QueueEvent) (st : PipeSt) : PipeSt :=
  es.foldl (fun s e => (streamStep env cfg s e).stOf) st

/-- The state evolution of the blocking dispatcher over a list of events,
ignoring loop control. -/
def blockFold (env : Env) (cfg : PipeConfig) (es : List QueueEvent) (st : PipeSt) : PipeSt :=
  es.foldl (fun s e => (blockStep env cfg s e).stOf) st

/-- How the pipeline state may evolve across benign (non-terminal, non-error)
dispatch steps: no save, no notification, no cached-message change, no abort,
only non-error frames emitted and only token appends recorded against the
moderation handler. -/
def BenignEvolve (st st' : PipeSt) : Prop :=
  st'.saved = st.saved ∧
  st'.notifications = st.notifications ∧
  st'.curMessage = st.curMessage ∧
  st'.keyErrored = st.keyErrored ∧
  st'.handler.isSome = st.handler.isSome ∧
  (∃ fs, st'.frames = st.frames ++ fs ∧ fs.all Frame.notError = true) ∧
  (∃ tr, st'.modTrace = st.modTrace ++ tr ∧ tr.all ModCall.isAppend = true)

theorem benignEvolve_refl (st : PipeSt) : BenignEvolve st st :=
  ⟨rfl, rfl, rfl, rfl, rfl, ⟨[], by simp, rfl⟩, ⟨[], by simp, rfl⟩⟩

theorem benignEvolve_trans {s1 s2 s3 : PipeSt}
    (h1 : BenignEvolve s1 s2) (h2 : BenignEvolve s2 s3) : BenignEvolve s1 s3 := by
  obtain ⟨a1, b1, c1, d1, j1, ⟨fs1, e1, f1⟩, ⟨tr1, g1, i1⟩⟩ := h1
  obtain ⟨a2, b2, c2, d2, j2, ⟨fs2, e2, f2⟩, ⟨tr2, g2, i2⟩⟩ := h2
  refine ⟨a2.trans a1, b2.trans b1, c2.trans c1, d2.trans d1, j2.trans j1,
    ⟨fs1 ++ fs2, ?_, ?_⟩, ⟨tr1 ++ tr2, ?_, ?_⟩⟩
  · rw [e2, e1, List.append_assoc]
  · simp [List.all_append, f1, f2]
  · rw [g2, g1, List.append_assoc]
  · simp [List.all_append, i1, i2]

/-- A benign event never ends the streaming dispatch loop, and its step obeys
the benign evolution discipline. -/
theorem streamStep_benign (env : Env) (cfg : PipeConfig) (st : PipeSt)
    (e : QueueEvent) (he : e.benign = true) :
    (∃ st', streamStep env cfg st e = .next st' ∧ BenignEvolve st st') ∨
    (∃ st' pub, streamStep env cfg st e = .nextPublish st' pub ∧ BenignEvolve st st') := by
  cases e with
  | error e =>
    simp [QueueEvent.benign, QueueEvent.isErrorKind] at he
  | stop sb =>
    simp [QueueEvent.benign, QueueEvent.isTerminalKind] at he
  | workflowFinished rid =>
    simp [QueueEvent.benign, QueueEvent.isTerminalKind] at he
  | workflowStarted rid =>
    exact .inl ⟨_, rfl, rfl, rfl, rfl, rfl, rfl, ⟨[_], rfl, rfl⟩, ⟨[], by simp, rfl⟩⟩
  | nodeStarted nid =>
    exact .inl ⟨_, rfl, rfl, rfl, rfl, rfl, rfl, ⟨[_], rfl, rfl⟩, ⟨[], by simp, rfl⟩⟩
  | nodeFinished nid =>
    exact .inl ⟨_, rfl, rfl, rfl, rfl, rfl, rfl, ⟨[_], rfl, rfl⟩, ⟨[], by simp, rfl⟩⟩
  | retrieverResources rs =>
    exact .inl ⟨_, rfl, rfl, rfl, rfl, rfl, rfl, ⟨[], by simp, rfl⟩, ⟨[], by simp, rfl⟩⟩
  | annotationReply aid =>
    simp only [streamStep]
    cases ha : env.annotations aid with
    | none => exact .inl ⟨st, rfl, benignEvolve_refl st⟩
    | some a =>
      exact .inl ⟨_, rfl, rfl, rfl, rfl, rfl, rfl, ⟨[], by simp, rfl⟩, ⟨[], by simp, rfl⟩⟩
  | messageFile fid =>
    exact .inl ⟨_, rfl, rfl, rfl, rfl, rfl, rfl, ⟨[_], rfl, rfl⟩, ⟨[], by simp, rfl⟩⟩
  | textChunk tOpt =>
    cases tOpt with
    | none => exact .inl ⟨st, rfl, benignEvolve_refl st⟩
    | some t =>
      simp only [streamStep]
      cases hh : st.handler with
      | none =>
        exact .inl ⟨_, rfl, rfl, rfl, rfl, rfl, by rw [hh], ⟨[_], rfl, rfl⟩, ⟨[], by simp, rfl⟩⟩
      | some h =>
        by_cases hd : shouldDirectOutput h = true
        · simp only [hd, if_true]
          exact .inr ⟨_, _, rfl, rfl, rfl, rfl, rfl, by simp [hh], ⟨[], by simp, rfl⟩,
            ⟨[], by simp, rfl⟩⟩
        · simp only [hd, if_false]
          exact .inl ⟨_, rfl, rfl, rfl, rfl, rfl, by simp [hh], ⟨[_], rfl, rfl⟩, ⟨[_], rfl, rfl⟩⟩
  | messageReplace t =>
    exact .inl ⟨_, rfl, rfl, rfl, rfl, rfl, rfl, ⟨[_], rfl, rfl⟩, ⟨[], by simp, rfl⟩⟩
  | ping =>
    exact .inl ⟨_, rfl, rfl, rfl, rfl, rfl, rfl, ⟨[_], rfl, rfl⟩, ⟨[], by simp, rfl⟩⟩

/-- Consuming a clean (all-benign) queue segment in streaming mode evolves
the state benignly and leaves the remaining queue, extended by whatever the
dispatcher published along the way, to be consumed with the remaining fuel. -/
theorem streamLoop_clean (env : Env) (cfg : PipeConfig) :
    ∀ (pre : List QueueEvent) (k : Nat) (st : PipeSt) (tail : List QueueEvent),
    pre.all QueueEvent.benign = true →
    ∃ extra, streamLoop env cfg (pre.length + k) (pre ++ tail) st =
      streamLoop env cfg k (tail ++ extra) (streamFold env cfg pre st) ∧
      BenignEvolve st (streamFold env cfg pre st) := by
  intro pre
  induction pre with
  | nil =>
    intro k st tail _
    exact ⟨[], by simp [streamFold], by
      show BenignEvolve st (streamFold env cfg [] st)
      exact benignEvolve_refl st⟩
  | cons e pre ih =>
    intro k st tail hall
    rw [List.all_cons, Bool.and_eq_true] at hall
    have hlen : (e :: pre).length + k = (pre.length + k) + 1 := by
      simp [List.length_cons]
      ring
    rw [hlen]
    rcases streamStep_benign env cfg st e hall.1 with ⟨st1, hstep, hev⟩ | ⟨st1, pub, hstep, hev⟩
    · have hfold : streamFold env cfg (e :: pre) st = streamFold env cfg pre st1 := by
        show streamFold env cfg pre (streamStep env cfg st e).stOf = _
        rw [hstep]
        rfl
      have hred : streamLoop env cfg ((pre.length + k) + 1) ((e :: pre) ++ tail) st
          = streamLoop env cfg (pre.length + k) (pre ++ tail) st1 := by
        simp [streamLoop, hstep]
      rw [hred, hfold]
      obtain ⟨extra, heq, hev2⟩ := ih k st1 tail hall.2
      exact ⟨extra, heq, benignEvolve_trans hev hev2⟩
    · have hfold : streamFold env cfg (e :: pre) st = streamFold env cfg pre st1 := by
        show streamFold env cfg pre (streamStep env cfg st e).stOf = _
        rw [hstep]
        rfl
      have hred : streamLoop env cfg ((pre.length + k) + 1) ((e :: pre) ++ tail) st
          = streamLoop env cfg (pre.length + k) (pre ++ (tail ++ pub)) st1 := by
        simp [streamLoop, hstep, List.append_assoc]
      rw [hred, hfold]
      obtain ⟨extra, heq, hev2⟩ := ih k st1 (tail ++ pub) hall.2
      refine ⟨pub ++ extra, ?_, benignEvolve_trans hev hev2⟩
      rw [heq, List.append_assoc]

/-- A benign event never ends the blocking dispatch loop, and its step obeys
the benign evolution discipline (the blocking dispatcher emits no frames and
makes no moderation calls outside the terminal branch). -/
theorem blockStep_benign (env : Env) (cfg : PipeConfig) (st : PipeSt)
    (e : QueueEvent) (he : e.benign = true) :
    ∃ st', blockStep env cfg st e = .next st' ∧ BenignEvolve st st' := by
  cases e with
  | error e =>
    simp [QueueEvent.benign, QueueEvent.isErrorKind] at he
  | stop sb =>
    simp [QueueEvent.benign, QueueEvent.isTerminalKind] at he
  | workflowFinished rid =>
    simp [QueueEvent.benign, QueueEvent.isTerminalKind] at he
  | retrieverResources rs =>
    exact ⟨_, rfl, rfl, rfl, rfl, rfl, rfl, ⟨[], by simp, rfl⟩, ⟨[], by simp, rfl⟩⟩
  | annotationReply aid =>
    simp only [blockStep]
    cases ha : env.annotations aid with
    | none => exact ⟨st, rfl, benignEvolve_refl st⟩
    | some a =>
      exact ⟨_, rfl, rfl, rfl, rfl, rfl, rfl, ⟨[], by simp, rfl⟩, ⟨[], by simp, rfl⟩⟩
  | workflowStarted rid =>
    exact ⟨_, rfl, rfl, rfl, rfl, rfl, rfl, ⟨[], by simp, rfl⟩, ⟨[], by simp, rfl⟩⟩
  | nodeFinished nid =>
    exact ⟨_, rfl, rfl, rfl, rfl, rfl, rfl, ⟨[], by simp, rfl⟩, ⟨[], by simp, rfl⟩⟩
  | nodeStarted nid => exact ⟨st, rfl, benignEvolve_refl st⟩
  | textChunk tOpt => exact ⟨st, rfl, benignEvolve_refl st⟩
  | messageReplace t => exact ⟨st, rfl, benignEvolve_refl st⟩
  | messageFile fid => exact ⟨st, rfl, benignEvolve_refl st⟩
  | ping => exact ⟨st, rfl, benignEvolve_refl st⟩

/-- Consuming a clean (all-benign) queue segment in blocking mode evolves the
state benignly and leaves the remaining queue to be consumed. -/
theorem blockLoop_clean (env : Env) (cfg : PipeConfig) :
    ∀ (pre : List QueueEvent) (st : PipeSt) (tail : List QueueEvent),
    pre.all QueueEvent.benign = true →
    blockLoop env cfg (pre ++ tail) st = blockLoop env cfg tail (blockFold env cfg pre st) ∧
      BenignEvolve st (blockFold env cfg pre st) := by
  intro pre
  induction pre with
  | nil =>
    intro st tail _
    exact ⟨by simp [blockFold], by
      show BenignEvolve st (blockFold env cfg [] st)
      exact benignEvolve_refl st⟩
  | cons e pre ih =>
    intro st tail hall
    rw [List.all_cons, Bool.and_eq_true] at hall
    obtain ⟨st1, hstep, hev⟩ := blockStep_benign env cfg st e hall.1
    have hfold : blockFold env cfg (e :: pre) st = blockFold env cfg pre st1 := by
      show blockFold env cfg pre (blockStep env cfg st e).stOf = _
      rw [hstep]
      rfl
    have hred : blockLoop env cfg ((e :: pre) ++ tail) st
        = blockLoop env cfg (pre ++ tail) st1 := by
      simp [blockLoop, hstep]
    rw [hred, hfold]
    obtain ⟨heq, hev2⟩ := ih st1 tail hall.2
    exact ⟨heq, benignEvolve_trans hev hev2⟩

/-- Fields of the record written by _save_message that are set from the final
task state and the clock, unconditionally. -/
theorem savedMessageOf_main (env : Env) (mid : String) (ts : TaskState) :
    (savedMessageOf env mid ts).answer = ts.answer ∧
    (savedMessageOf env mid ts).provider_response_latency = env.elapsed ∧
    (savedMessageOf env mid ts).workflow_run_id = ts.workflow_run_id ∧
    (savedMessageOf env mid ts).id = mid ∧
    (savedMessageOf env mid ts).query = (env.messages mid).query ∧
    (savedMessageOf env mid ts).created_at = (env.messages mid).created_at := by
  unfold savedMessageOf
  rcases h1 : ts.metadata.nonempty <;>
    rcases h2 : ts.metadata.usage with _ | _ | u <;>
      exact ⟨rfl, rfl, rfl, rfl, rfl, rfl⟩

/-- When a truthy usage entry was collected, _save_message writes the token
counts, unit prices, total price and currency from it. -/
theorem savedMessageOf_usage_set (env : Env) (mid : String) (ts : TaskState)
    (u : LLMUsage) (hu : ts.metadata.usage = some (some u)) :
    (savedMessageOf env mid ts).message_tokens = u.prompt_tokens ∧
    (savedMessageOf env mid ts).message_unit_price = u.prompt_unit_price ∧
    (savedMessageOf env mid ts).message_price_unit = u.prompt_price_unit ∧
    (savedMessageOf env mid ts).answer_tokens = u.completion_tokens ∧
    (savedMessageOf env mid ts).answer_unit_price = u.completion_unit_price ∧
    (savedMessageOf env mid ts).answer_price_unit = u.completion_price_unit ∧
    (savedMessageOf env mid ts).total_price = u.total_price ∧
    (savedMessageOf env mid ts).currency = u.currency := by
  have hne : ts.metadata.nonempty = true := by
    simp [TSMetadata.nonempty, hu]
  unfold savedMessageOf
  rw [hne, hu]
  exact ⟨rfl, rfl, rfl, rfl, rfl, rfl, rfl, rfl⟩

/-- When no truthy usage entry was collected, _save_message leaves the
token-count, price and currency columns of the re-read record untouched. -/
theorem savedMessageOf_usage_unset (env : Env) (mid : String) (ts : TaskState)
    (hu : ts.metadata.usage = none ∨ ts.metadata.usage = some none) :
    (savedMessageOf env mid ts).message_tokens = (env.messages mid).message_tokens ∧
    (savedMessageOf env mid ts).message_unit_price = (env.messages mid).message_unit_price ∧
    (savedMessageOf env mid ts).message_price_unit = (env.messages mid).message_price_unit ∧
    (savedMessageOf env mid ts).answer_tokens = (env.messages mid).answer_tokens ∧
    (savedMessageOf env mid ts).answer_unit_price = (env.messages mid).answer_unit_price ∧
    (savedMessageOf env mid ts).answer_price_unit = (env.messages mid).answer_price_unit ∧
    (savedMessageOf env mid ts).total_price = (env.messages mid).total_price ∧
    (savedMessageOf env mid ts).currency = (env.messages mid).currency := by
  unfold savedMessageOf
  rcases hu with hu | hu <;> rw [hu] <;>
    rcases h1 : ts.metadata.nonempty <;>
      exact ⟨rfl, rfl, rfl, rfl, rfl, rfl, rfl, rfl⟩

/-- Streaming moderation finalization: stability of the effect lists and the
final answer, by case on the handler. -/
theorem moderateFinishStream_spec (cfg : PipeConfig) (st : PipeSt) :
    (moderateFinishStream cfg st).saved = st.saved ∧
    (moderateFinishStream cfg st).notifications = st.notifications ∧
    (moderateFinishStream cfg st).curMessage = st.curMessage ∧
    (moderateFinishStream cfg st).keyErrored = st.keyErrored ∧
    (moderateFinishStream cfg st).taskState.metadata = st.taskState.metadata ∧
    (moderateFinishStream cfg st).taskState.workflow_run_id = st.taskState.workflow_run_id ∧
    (moderateFinishStream cfg st).taskState.answer =
      (match st.handler with
       | none => st.taskState.answer
       | some h => moderationCompletion h st.taskState.answer) ∧
    (moderateFinishStream cfg st).modTrace =
      (match st.handler with
       | none => st.modTrace
       | some _ => st.modTrace ++ [.stopThread, .moderationCompletionCall st.taskState.answer]) := by
  cases hh : st.handler <;>
    simp [moderateFinishStream, hh]

/-- Blocking moderation finalization: stability and the final answer. -/
theorem moderateFinishBlock_spec (st : PipeSt) :
    (moderateFinishBlock st).saved = st.saved ∧
    (moderateFinishBlock st).notifications = st.notifications ∧
    (moderateFinishBlock st).curMessage = st.curMessage ∧
    (moderateFinishBlock st).keyErrored = st.keyErrored ∧
    (moderateFinishBlock st).taskState.metadata = st.taskState.metadata ∧
    (moderateFinishBlock st).taskState.workflow_run_id = st.taskState.workflow_run_id ∧
    (moderateFinishBlock st).taskState.answer =
      (match st.handler with
       | none => st.taskState.answer
       | some h => moderationCompletion h st.taskState.answer) ∧
    (moderateFinishBlock st).modTrace =
      (match st.handler with
       | none => st.modTrace
       | some _ => st.modTrace ++ [.stopThread, .moderationCompletionCall st.taskState.answer]) := by
  cases hh : st.handler <;>
    simp [moderateFinishBlock, hh]

/-- The message_end step touches only the frames and the KeyError flag. -/
theorem endMessageSt_stable (cfg : PipeConfig) (st : PipeSt) :
    (endMessageSt cfg st).saved = st.saved ∧
    (endMessageSt cfg st).notifications = st.notifications ∧
    (endMessageSt cfg st).taskState = st.taskState ∧
    (endMessageSt cfg st).curMessage = st.curMessage ∧
    (endMessageSt cfg st).modTrace = st.modTrace := by
  unfold endMessageSt
  split
  · split <;> exact ⟨rfl, rfl, rfl, rfl, rfl⟩
  · exact ⟨rfl, rfl, rfl, rfl, rfl⟩

/-- The streaming terminal tail: exactly one record is saved, built by
_save_message from the re-read record and the post-moderation task state, and
exactly one message-created notification is published for it. -/
theorem finishStream_spec (env : Env) (cfg : PipeConfig) (st : PipeSt) :
    (finishStream env cfg st).saved = st.saved ++
      [savedMessageOf env st.curMessage.id (moderateFinishStream cfg st).taskState] ∧
    (finishStream env cfg st).notifications = st.notifications ++
      [{ message := savedMessageOf env st.curMessage.id (moderateFinishStream cfg st).taskState
         conversation_id := cfg.conversation_id
         is_first_message := cfg.entity_conversation_id.isNone
         extras := cfg.extras }] ∧
    (finishStream env cfg st).taskState = (moderateFinishStream cfg st).taskState ∧
    (finishStream env cfg st).modTrace = (moderateFinishStream cfg st).modTrace := by
  have hm := moderateFinishStream_spec cfg st
  have he := endMessageSt_stable cfg (saveMessageSt env cfg (moderateFinishStream cfg st))
  unfold finishStream
  refine ⟨?_, ?_, ?_, ?_⟩
  · rw [he.1]
    show (moderateFinishStream cfg st).saved ++ _ = _
    rw [hm.1, hm.2.2.1]
  · rw [he.2.1]
    show (moderateFinishStream cfg st).notifications ++ _ = _
    rw [hm.2.1, hm.2.2.1]
  · rw [he.2.2.1]
    rfl
  · rw [he.2.2.2.2]
    rfl

/-- An Ok terminal event ends the streaming loop through the common
finalization tail, applied to the dispatch state (with the answer overwritten
from the run outputs in the WorkflowFinished case). -/
theorem streamStep_term (env : Env) (cfg : PipeConfig) (st : PipeSt)
    (t : QueueEvent) (ht : TerminalOk env t) :
    ∃ stt, streamStep env cfg st t = .done (finishStream env cfg stt) ∧
      stt.saved = st.saved ∧ stt.notifications = st.notifications ∧
      stt.curMessage = st.curMessage ∧ stt.handler = st.handler ∧
      stt.modTrace = st.modTrace ∧
      stt.taskState.metadata = st.taskState.metadata ∧
      stt.taskState.workflow_run_id = st.taskState.workflow_run_id ∧
      (∀ rid, t = QueueEvent.workflowFinished rid →
        stt.taskState.answer = ((getWorkflowRun env rid).outputs_dict.text.getD "")) ∧
      ((∃ sb, t = QueueEvent.stop sb) → stt = st) := by
  rcases ht with ⟨sb, rfl⟩ | ⟨rid, rfl, hs⟩
  · refine ⟨st, rfl, rfl, rfl, rfl, rfl, rfl, rfl, rfl, ?_, ?_⟩
    · intro rid h
      cases h
    · intro _
      rfl
  · simp only [streamStep, hs, eq_self_iff_true, if_true]
    refine ⟨_, rfl, rfl, rfl, rfl, rfl, rfl, rfl, rfl, ?_, ?_⟩
    · intro rid' h
      cases h
      rfl
    · intro hsb
      rcases hsb with ⟨sb, hsb⟩
      cases hsb

/-- An Ok terminal event routes the blocking dispatcher into the common
finalization tail, applied to the dispatch state (with the answer overwritten
from the run outputs in the WorkflowFinished case). -/
theorem blockStep_term (env : Env) (cfg : PipeConfig) (st : PipeSt)
    (t : QueueEvent) (ht : TerminalOk env t) :
    ∃ stt, blockStep env cfg st t = finishBlock env cfg stt ∧
      stt.saved = st.saved ∧ stt.notifications = st.notifications ∧
      stt.curMessage = st.curMessage ∧ stt.handler = st.handler ∧
      stt.modTrace = st.modTrace ∧
      stt.taskState.metadata = st.taskState.metadata ∧
      stt.taskState.workflow_run_id = st.taskState.workflow_run_id ∧
      (∀ rid, t = QueueEvent.workflowFinished rid →
        stt.taskState.answer = ((getWorkflowRun env rid).outputs.text.getD "")) ∧
      ((∃ sb, t = QueueEvent.stop sb) → stt = st) := by
  rcases ht with ⟨sb, rfl⟩ | ⟨rid, rfl, hs⟩
  · refine ⟨st, rfl, rfl, rfl, rfl, rfl, rfl, rfl, rfl, ?_, ?_⟩
    · intro rid h
      cases h
    · intro _
      rfl
  · simp only [blockStep, hs, eq_self_iff_true, if_true]
    refine ⟨_, rfl, rfl, rfl, rfl, rfl, rfl, rfl, rfl, ?_, ?_⟩
    · intro rid' h
      cases h
      rfl
    · intro hsb
      rcases hsb with ⟨sb, hsb⟩
      cases hsb

/-- The blocking response construction returns either the aggregated
response (whose answer is the final task state answer) or a KeyError, and in
both cases the carried state is the given post-save state, possibly with the
abort flag raised. -/
theorem blockResponseOf_shape (cfg : PipeConfig) (st1 : PipeSt) :
    (∃ r, blockResponseOf cfg st1 = .finished r st1 ∧ r.answer = st1.taskState.answer) ∨
    blockResponseOf cfg st1 = .raisedKeyError { st1 with keyErrored := true } := by
  cases hne : st1.taskState.metadata.nonempty with
  | false =>
    have heq : blockResponseOf cfg st1 = .finished
        { event := "message", task_id := cfg.task_id, id := st1.curMessage.id,
          message_id := st1.curMessage.id, conversation_id := cfg.conversation_id,
          mode := cfg.conversation_mode, answer := st1.taskState.answer,
          metadata := none, created_at := st1.curMessage.created_at } st1 := by
      unfold blockResponseOf
      rw [hne, if_neg Bool.false_ne_true]
    exact .inl ⟨_, heq, rfl⟩
  | true =>
    cases hmd : getResponseMetadata st1.taskState.metadata cfg.invoke_from with
    | error e =>
      right
      unfold blockResponseOf
      rw [hne, if_pos rfl, hmd]
    | ok md =>
      have heq : blockResponseOf cfg st1 = .finished
          { event := "message", task_id := cfg.task_id, id := st1.curMessage.id,
            message_id := st1.curMessage.id, conversation_id := cfg.conversation_id,
            mode := cfg.conversation_mode, answer := st1.taskState.answer,
            metadata := some md, created_at := st1.curMessage.created_at } st1 := by
        unfold blockResponseOf
        rw [hne, if_pos rfl, hmd]
      exact .inl ⟨_, heq, rfl⟩

/-- A streaming run over a clean prefix followed by an Ok terminal event ends
in the finalization tail, applied to a dispatch state that has saved nothing,
published no notification, still carries the pre-stream cached message, has
made only append calls on the moderation handler, and still holds a handler
exactly when one was configured. -/
theorem runStream_term_spec (env : Env) (cfg : PipeConfig)
    (h0 : Option OutputModerationSt) (pre : List QueueEvent) (t : QueueEvent)
    (hpre : pre.all QueueEvent.benign = true) (ht : TerminalOk env t) :
    ∃ stt, runStream env cfg h0 (pre ++ [t]) = finishStream env cfg stt ∧
      stt.saved = [] ∧ stt.notifications = [] ∧ stt.curMessage = cfg.message0 ∧
      stt.modTrace.all ModCall.isAppend = true ∧
      stt.handler.isSome = h0.isSome := by
  obtain ⟨extra, heq, hev⟩ :=
    streamLoop_clean env cfg pre (pre.length + 9 + 1) (initSt cfg h0) [t] hpre
  obtain ⟨st', hst'⟩ : ∃ x, x = streamFold env cfg pre (initSt cfg h0) := ⟨_, rfl⟩
  rw [← hst'] at heq hev
  obtain ⟨stt, hstep, hsaved, hnotif, hcur, hhand, hmod, _, _, _, _⟩ :=
    streamStep_term env cfg st' t ht
  obtain ⟨hes, hen, hec, _, hehand, _, ⟨tr, htr, htra⟩⟩ := hev
  refine ⟨stt, ?_, ?_, ?_, ?_, ?_, ?_⟩
  · unfold runStream
    have hfuel : 2 * (pre ++ [t]).length + 8 = pre.length + (pre.length + 9 + 1) := by
      simp [List.length_append]
      ring
    rw [hfuel, heq]
    show streamLoop env cfg (pre.length + 9 + 1) (t :: extra) st' = _
    simp [streamLoop, hstep]
  · rw [hsaved, hes]
    rfl
  · rw [hnotif, hen]
    rfl
  · rw [hcur, hec]
    rfl
  · rw [hmod, htr]
    show ((initSt cfg h0).modTrace ++ tr).all ModCall.isAppend = true
    simpa [initSt] using htra
  · rw [hhand, hehand]
    rfl

/-- A blocking run over a clean prefix followed by an Ok terminal event
passes through moderation finalization and _save_message applied to a
dispatch state that has saved nothing, published no notification and still
carries the pre-stream cached message; the outcome is the aggregated
response, whose answer is the final task state answer, unless metadata
rendering raises KeyError. -/
theorem runBlock_term_spec (env : Env) (cfg : PipeConfig)
    (h0 : Option OutputModerationSt) (pre : List QueueEvent) (t : QueueEvent)
    (hpre : pre.all QueueEvent.benign = true) (ht : TerminalOk env t) :
    ∃ stt,
      stt.saved = [] ∧ stt.notifications = [] ∧ stt.curMessage = cfg.message0 ∧
      stt.modTrace.all ModCall.isAppend = true ∧
      (runBlock env cfg h0 (pre ++ [t])).state.saved =
        (saveMessageSt env cfg (moderateFinishBlock stt)).saved ∧
      (runBlock env cfg h0 (pre ++ [t])).state.notifications =
        (saveMessageSt env cfg (moderateFinishBlock stt)).notifications ∧
      (runBlock env cfg h0 (pre ++ [t])).state.taskState =
        (moderateFinishBlock stt).taskState ∧
      ((∃ r, (runBlock env cfg h0 (pre ++ [t])).outcome = .ok r ∧
          r.answer = (moderateFinishBlock stt).taskState.answer) ∨
        (runBlock env cfg h0 (pre ++ [t])).outcome = .raisedKeyError) := by
  obtain ⟨heq, hes, hen, hec, _, _, _, ⟨tr, htr, htra⟩⟩ :=
    blockLoop_clean env cfg pre (initSt cfg h0) [t] hpre
  obtain ⟨st', hst'⟩ : ∃ x, x = blockFold env cfg pre (initSt cfg h0) := ⟨_, rfl⟩
  rw [← hst'] at heq hes hen hec htr
  obtain ⟨stt, hstep, hsaved, hnotif, hcur, _, hmod, _, _, _, _⟩ :=
    blockStep_term env cfg st' t ht
  have hrun : runBlock env cfg h0 (pre ++ [t]) = blockLoop env cfg [t] st' := heq
  have hfacts : stt.saved = [] ∧ stt.notifications = [] ∧ stt.curMessage = cfg.message0 ∧
      stt.modTrace.all ModCall.isAppend = true := by
    refine ⟨?_, ?_, ?_, ?_⟩
    · rw [hsaved, hes]
      rfl
    · rw [hnotif, hen]
      rfl
    · rw [hcur, hec]
      rfl
    · rw [hmod, htr]
      show ((initSt cfg h0).modTrace ++ tr).all ModCall.isAppend = true
      simpa [initSt] using htra
  rcases blockResponseOf_shape cfg (saveMessageSt env cfg (moderateFinishBlock stt)) with
    ⟨r, hfin, hans⟩ | hkey
  · have hred : blockLoop env cfg [t] st' =
        { outcome := .ok r, state := saveMessageSt env cfg (moderateFinishBlock stt) } := by
      simp only [blockLoop, hstep, finishBlock]
      rw [hfin]
    rw [hrun, hred]
    exact ⟨stt, hfacts.1, hfacts.2.1, hfacts.2.2.1, hfacts.2.2.2, rfl, rfl, rfl,
      .inl ⟨r, rfl, hans⟩⟩
  · have hred : blockLoop env cfg [t] st' =
        { outcome := .raisedKeyError,
          state := { saveMessageSt env cfg (moderateFinishBlock stt) with keyErrored := true } } := by
      simp only [blockLoop, hstep, finishBlock]
      rw [hkey]
    rw [hrun, hred]
    exact ⟨stt, hfacts.1, hfacts.2.1, hfacts.2.2.1, hfacts.2.2.2, rfl, rfl, rfl, .inr rfl⟩

/-- C1: for every event sequence of benign events ending in a Stop or in a
WorkflowFinished whose run status is succeeded, finalization runs in both
modes: exactly one message record is persisted; it is the record re-read by
id from the store (its untouched query column and created_at come from the
store, not from the cached copy), its answer equals the final
(post-moderation) task-state answer, its response latency and workflow run
id are set, the token-count/unit-price/currency/total-price columns are set
from the collected usage exactly when a truthy usage entry is present in the
final metadata (and are otherwise left as in the re-read record), and
exactly one message-created notification is published carrying the record,
the conversation, the first-message flag and the extras. -/
theorem c1_finalization_persists_final_answer
    (env : Env) (cfg : PipeConfig) (h0 : Option OutputModerationSt)
    (pre : List QueueEvent) (t : QueueEvent)
    (hpre : pre.all QueueEvent.benign = true) (ht : TerminalOk env t) :
    (∃ m',
      (runStream env cfg h0 (pre ++ [t])).saved = [m'] ∧
      m'.answer = (runStream env cfg h0 (pre ++ [t])).taskState.answer ∧
      m'.provider_response_latency = env.elapsed ∧
      m'.workflow_run_id = (runStream env cfg h0 (pre ++ [t])).taskState.workflow_run_id ∧
      m'.id = cfg.message0.id ∧
      m'.query = (env.messages cfg.message0.id).query ∧
      m'.created_at = (env.messages cfg.message0.id).created_at ∧
      (∀ u, (runStream env cfg h0 (pre ++ [t])).taskState.metadata.usage = some (some u) →
        m'.message_tokens = u.prompt_tokens ∧ m'.answer_tokens = u.completion_tokens ∧
        m'.message_unit_price = u.prompt_unit_price ∧
        m'.answer_unit_price = u.completion_unit_price ∧
        m'.total_price = u.total_price ∧ m'.currency = u.currency) ∧
      (((runStream env cfg h0 (pre ++ [t])).taskState.metadata.usage = none ∨
          (runStream env cfg h0 (pre ++ [t])).taskState.metadata.usage = some none) →
        m'.message_tokens = (env.messages cfg.message0.id).message_tokens ∧
        m'.answer_tokens = (env.messages cfg.message0.id).answer_tokens ∧
        m'.total_price = (env.messages cfg.message0.id).total_price ∧
        m'.currency = (env.messages cfg.message0.id).currency) ∧
      (runStream env cfg h0 (pre ++ [t])).notifications =
        [{ message := m', conversation_id := cfg.conversation_id,
           is_first_message := cfg.entity_conversation_id.isNone, extras := cfg.extras }]) ∧
    (∃ m'',
      (runBlock env cfg h0 (pre ++ [t])).state.saved = [m''] ∧
      m''.answer = (runBlock env cfg h0 (pre ++ [t])).state.taskState.answer ∧
      m''.provider_response_latency = env.elapsed ∧
      m''.workflow_run_id = (runBlock env cfg h0 (pre ++ [t])).state.taskState.workflow_run_id ∧
      m''.id = cfg.message0.id ∧
      m''.query = (env.messages cfg.message0.id).query ∧
      m''.created_at = (env.messages cfg.message0.id).created_at ∧
      (runBlock env cfg h0 (pre ++ [t])).state.notifications =
        [{ message := m'', conversation_id := cfg.conversation_id,
           is_first_message := cfg.entity_conversation_id.isNone, extras := cfg.extras }]) := by
  constructor
  · obtain ⟨stt, hrun, hsv, hnt, hcm, _, _⟩ := runStream_term_spec env cfg h0 pre t hpre ht
    obtain ⟨hfsv, hfnt, hfts, _⟩ := finishStream_spec env cfg stt
    obtain ⟨ha, hl, hw, hid, hq, hc⟩ :=
      savedMessageOf_main env stt.curMessage.id (moderateFinishStream cfg stt).taskState
    rw [hrun]
    refine ⟨savedMessageOf env stt.curMessage.id (moderateFinishStream cfg stt).taskState,
      ?_, ?_, hl, ?_, ?_, ?_, ?_, ?_, ?_, ?_⟩
    · rw [hfsv, hsv]
      rfl
    · rw [hfts]
      exact ha
    · rw [hfts]
      exact hw
    · rw [← hcm]
      exact hid
    · rw [← hcm]
      exact hq
    · rw [← hcm]
      exact hc
    · intro u hu
      rw [hfts] at hu
      obtain ⟨u1, u2, u3, u4, u5, u6, u7, u8⟩ :=
        savedMessageOf_usage_set env stt.curMessage.id (moderateFinishStream cfg stt).taskState u hu
      exact ⟨u1, u4, u2, u5, u7, u8⟩
    · intro hu
      rw [hfts] at hu
      obtain ⟨u1, u2, u3, u4, u5, u6, u7, u8⟩ :=
        savedMessageOf_usage_unset env stt.curMessage.id (moderateFinishStream cfg stt).taskState hu
      rw [← hcm]
      exact ⟨u1, u4, u7, u8⟩
    · rw [hfnt, hnt]
      rfl
  · obtain ⟨stt, hsv, hnt, hcm, _, hrs, hrn, hrt, _⟩ :=
      runBlock_term_spec env cfg h0 pre t hpre ht
    obtain ⟨hms, hmn, hmc, _, _, _, _, _⟩ := moderateFinishBlock_spec stt
    obtain ⟨ha, hl, hw, hid, hq, hc⟩ :=
      savedMessageOf_main env (moderateFinishBlock stt).curMessage.id
        (moderateFinishBlock stt).taskState
    have hcm2 : (moderateFinishBlock stt).curMessage.id = cfg.message0.id := by
      rw [hmc, hcm]
    refine ⟨savedMessageOf env (moderateFinishBlock stt).curMessage.id
        (moderateFinishBlock stt).taskState, ?_, ?_, hl, ?_, ?_, ?_, ?_, ?_⟩
    · rw [hrs]
      show (moderateFinishBlock stt).saved ++ _ = _
      rw [hms, hsv]
      rfl
    · rw [hrt]
      exact ha
    · rw [hrt]
      exact hw
    · rw [← hcm2]
      exact hid
    · rw [← hcm2]
      exact hq
    · rw [← hcm2]
      exact hc
    · rw [hrn]
      show (moderateFinishBlock stt).notifications ++ _ = _
      rw [hmn, hnt]
      rfl

/-- Witness for C1 at a concrete input: the empty prefix followed by a Stop
event, no moderation handler. -/
theorem c1_witness :
    (∃ m',
      (runStream env0 cfg0 none ([] ++ [QueueEvent.stop .userManual])).saved = [m'] ∧
      m'.answer = (runStream env0 cfg0 none ([] ++ [QueueEvent.stop .userManual])).taskState.answer ∧
      m'.provider_response_latency = env0.elapsed ∧
      m'.workflow_run_id =
        (runStream env0 cfg0 none ([] ++ [QueueEvent.stop .userManual])).taskState.workflow_run_id ∧
      m'.id = cfg0.message0.id ∧
      m'.query = (env0.messages cfg0.message0.id).query ∧
      m'.created_at = (env0.messages cfg0.message0.id).created_at ∧
      (∀ u, (runStream env0 cfg0 none ([] ++ [QueueEvent.stop .userManual])).taskState.metadata.usage
          = some (some u) →
        m'.message_tokens = u.prompt_tokens ∧ m'.answer_tokens = u.completion_tokens ∧
        m'.message_unit_price = u.prompt_unit_price ∧
        m'.answer_unit_price = u.completion_unit_price ∧
        m'.total_price = u.total_price ∧ m'.currency = u.currency) ∧
      (((runStream env0 cfg0 none ([] ++ [QueueEvent.stop .userManual])).taskState.metadata.usage
            = none ∨
          (runStream env0 cfg0 none ([] ++ [QueueEvent.stop .userManual])).taskState.metadata.usage
            = some none) →
        m'.message_tokens = (env0.messages cfg0.message0.id).message_tokens ∧
        m'.answer_tokens = (env0.messages cfg0.message0.id).answer_tokens ∧
        m'.total_price = (env0.messages cfg0.message0.id).total_price ∧
        m'.currency = (env0.messages cfg0.message0.id).currency) ∧
      (runStream env0 cfg0 none ([] ++ [QueueEvent.stop .userManual])).notifications =
        [{ message := m', conversation_id := cfg0.conversation_id,
           is_first_message := cfg0.entity_conversation_id.isNone, extras := cfg0.extras }]) ∧
    (∃ m'',
      (runBlock env0 cfg0 none ([] ++ [QueueEvent.stop .userManual])).state.saved = [m''] ∧
      m''.answer =
        (runBlock env0 cfg0 none ([] ++ [QueueEvent.stop .userManual])).state.taskState.answer ∧
      m''.provider_response_latency = env0.elapsed ∧
      m''.workflow_run_id =
        (runBlock env0 cfg0 none ([] ++ [QueueEvent.stop .userManual])).state.taskState.workflow_run_id ∧
      m''.id = cfg0.message0.id ∧
      m''.query = (env0.messages cfg0.message0.id).query ∧
      m''.created_at = (env0.messages cfg0.message0.id).created_at ∧
      (runBlock env0 cfg0 none ([] ++ [QueueEvent.stop .userManual])).state.notifications =
        [{ message := m'', conversation_id := cfg0.conversation_id,
           is_first_message := cfg0.entity_conversation_id.isNone, extras := cfg0.extras }]) :=
  c1_finalization_persists_final_answer env0 cfg0 none [] (.stop .userManual) rfl
    (.inl ⟨_, rfl⟩)

/-- A single streaming dispatch step never grows the saved list on a
continuing outcome and grows it by at most one record on a terminating
outcome. -/
theorem streamStep_saved_le (env : Env) (cfg : PipeConfig) (st : PipeSt) (e : QueueEvent) :
    (∀ s, streamStep env cfg st e = .next s → s.saved = st.saved) ∧
    (∀ s pub, streamStep env cfg st e = .nextPublish s pub → s.saved = st.saved) ∧
    (∀ s, streamStep env cfg st e = .done s → s.saved.length ≤ st.saved.length + 1) := by
  by_cases hb : e.benign = true
  · rcases streamStep_benign env cfg st e hb with ⟨s1, heq, hev⟩ | ⟨s1, pub1, heq, hev⟩
    · refine ⟨?_, ?_, ?_⟩
      · intro s h
        rw [heq] at h
        cases h
        exact hev.1
      · intro s pub h
        rw [heq] at h
        cases h
      · intro s h
        rw [heq] at h
        cases h
    · refine ⟨?_, ?_, ?_⟩
      · intro s h
        rw [heq] at h
        cases h
      · intro s pub h
        rw [heq] at h
        cases h
        exact hev.1
      · intro s h
        rw [heq] at h
        cases h
  · cases e with
    | error err =>
      refine ⟨?_, ?_, ?_⟩
      · intro s h
        cases h
      · intro s pub h
        cases h
      · intro s h
        cases h
        simp
    | stop sb =>
      refine ⟨?_, ?_, ?_⟩
      · intro s h
        cases h
      · intro s pub h
        cases h
      · intro s h
        cases h
        rw [(finishStream_spec env cfg st).1]
        simp
    | workflowFinished rid =>
      refine ⟨?_, ?_, ?_⟩ <;> intro s <;> simp only [streamStep]
      · by_cases hs : (getWorkflowRun env rid).status = succeededStatus
        · rw [if_pos hs]
          intro h
          cases h
        · rw [if_neg hs]
          intro h
          cases h
      · intro pub
        by_cases hs : (getWorkflowRun env rid).status = succeededStatus
        · rw [if_pos hs]
          intro h
          cases h
        · rw [if_neg hs]
          intro h
          cases h
      · by_cases hs : (getWorkflowRun env rid).status = succeededStatus
        · rw [if_pos hs]
          intro h
          cases h
          rw [(finishStream_spec env cfg _).1]
          simp
        · rw [if_neg hs]
          intro h
          cases h
          simp
    | retrieverResources rs => simp [QueueEvent.benign, QueueEvent.isTerminalKind,
        QueueEvent.isErrorKind] at hb
    | annotationReply aid => simp [QueueEvent.benign, QueueEvent.isTerminalKind,
        QueueEvent.isErrorKind] at hb
    | workflowStarted rid => simp [QueueEvent.benign, QueueEvent.isTerminalKind,
        QueueEvent.isErrorKind] at hb
    | nodeStarted nid => simp [QueueEvent.benign, QueueEvent.isTerminalKind,
        QueueEvent.isErrorKind] at hb
    | nodeFinished nid => simp [QueueEvent.benign, QueueEvent.isTerminalKind,
        QueueEvent.isErrorKind] at hb
    | textChunk tOpt => simp [QueueEvent.benign, QueueEvent.isTerminalKind,
        QueueEvent.isErrorKind] at hb
    | messageFile fid => simp [QueueEvent.benign, QueueEvent.isTerminalKind,
        QueueEvent.isErrorKind] at hb
    | messageReplace t => simp [QueueEvent.benign, QueueEvent.isTerminalKind,
        QueueEvent.isErrorKind] at hb
    | ping => simp [QueueEvent.benign, QueueEvent.isTerminalKind,
        QueueEvent.isErrorKind] at hb

/-- The streaming dispatch loop saves at most one record beyond what the
entry state already holds, for every fuel and queue. -/
theorem streamLoop_saved_le (env : Env) (cfg : PipeConfig) :
    ∀ (fuel : Nat) (q : List QueueEvent) (st : PipeSt),
    (streamLoop env cfg fuel q st).saved.length ≤ st.saved.length + 1 := by
  intro fuel
  induction fuel with
  | zero =>
    intro q st
    cases q with
    | nil => exact Nat.le_succ _
    | cons e rest => exact Nat.le_succ _
  | succ f ih =>
    intro q st
    cases q with
    | nil => exact Nat.le_succ _
    | cons e rest =>
      have hstep := streamStep_saved_le env cfg st e
      cases hso : streamStep env cfg st e with
      | next s =>
        have hred : streamLoop env cfg (f + 1) (e :: rest) st = streamLoop env cfg f rest s := by
          simp [streamLoop, hso]
        rw [hred]
        have hle := ih rest s
        rw [hstep.1 s hso] at hle
        exact hle
      | nextPublish s pub =>
        have hred : streamLoop env cfg (f + 1) (e :: rest) st
            = streamLoop env cfg f (rest ++ pub) s := by
          simp [streamLoop, hso]
        rw [hred]
        have hle := ih (rest ++ pub) s
        rw [hstep.2.1 s pub hso] at hle
        exact hle
      | done s =>
        have hred : streamLoop env cfg (f + 1) (e :: rest) st = s := by
          simp [streamLoop, hso]
        rw [hred]
        exact hstep.2.2 s hso

/-- A single blocking dispatch step never grows the saved list on a
continuing or raising outcome and grows it by at most one record when the
terminal tail runs. -/
theorem blockStep_saved_le (env : Env) (cfg : PipeConfig) (st : PipeSt) (e : QueueEvent) :
    (∀ s, blockStep env cfg st e = .next s → s.saved = st.saved) ∧
    (∀ r s, blockStep env cfg st e = .finished r s → s.saved.length ≤ st.saved.length + 1) ∧
    (∀ err s, blockStep env cfg st e = .raisedErr err s → s.saved = st.saved) ∧
    (∀ s, blockStep env cfg st e = .raisedKeyError s → s.saved.length ≤ st.saved.length + 1) := by
  have hfin : ∀ stX : PipeSt, stX.saved = st.saved →
      (∀ s, finishBlock env cfg stX = .next s → False) ∧
      (∀ err s, finishBlock env cfg stX = .raisedErr err s → False) ∧
      (∀ r s, finishBlock env cfg stX = .finished r s → s.saved.length ≤ st.saved.length + 1) ∧
      (∀ s, finishBlock env cfg stX = .raisedKeyError s →
        s.saved.length ≤ st.saved.length + 1) := by
    intro stX hX
    have hlen : (saveMessageSt env cfg (moderateFinishBlock stX)).saved.length
        = st.saved.length + 1 := by
      show ((moderateFinishBlock stX).saved ++ [_]).length = _
      rw [(moderateFinishBlock_spec stX).1, hX]
      simp
    rcases blockResponseOf_shape cfg (saveMessageSt env cfg (moderateFinishBlock stX)) with
      ⟨r0, hsh, _⟩ | hsh
    · refine ⟨?_, ?_, ?_, ?_⟩
      · intro s h
        rw [show finishBlock env cfg stX = _ from hsh] at h
        cases h
      · intro err s h
        rw [show finishBlock env cfg stX = _ from hsh] at h
        cases h
      · intro r s h
        rw [show finishBlock env cfg stX = _ from hsh] at h
        cases h
        exact le_of_eq hlen
      · intro s h
        rw [show finishBlock env cfg stX = _ from hsh] at h
        cases h
    · refine ⟨?_, ?_, ?_, ?_⟩
      · intro s h
        rw [show finishBlock env cfg stX = _ from hsh] at h
        cases h
      · intro err s h
        rw [show finishBlock env cfg stX = _ from hsh] at h
        cases h
      · intro r s h
        rw [show finishBlock env cfg stX = _ from hsh] at h
        cases h
      · intro s h
        rw [show finishBlock env cfg stX = _ from hsh] at h
        cases h
        exact le_of_eq hlen
  by_cases hb : e.benign = true
  · obtain ⟨s1, heq, hev⟩ := blockStep_benign env cfg st e hb
    refine ⟨?_, ?_, ?_, ?_⟩
    · intro s h
      rw [heq] at h
      cases h
      exact hev.1
    · intro r s h
      rw [heq] at h
      cases h
    · intro err s h
      rw [heq] at h
      cases h
    · intro s h
      rw [heq] at h
      cases h
  · cases e with
    | error err0 =>
      refine ⟨?_, ?_, ?_, ?_⟩
      · intro s h
        cases h
      · intro r s h
        cases h
      · intro err s h
        cases h
        rfl
      · intro s h
        cases h
    | stop sb =>
      have h1 := hfin st rfl
      refine ⟨?_, ?_, ?_, ?_⟩
      · intro s h
        exact (h1.1 s h).elim
      · intro r s h
        exact h1.2.2.1 r s h
      · intro err s h
        exact (h1.2.1 err s h).elim
      · intro s h
        exact h1.2.2.2 s h
    | workflowFinished rid =>
      by_cases hs : (getWorkflowRun env rid).status = succeededStatus
      · have h1 := hfin { st with taskState :=
          { st.taskState with answer := (getWorkflowRun env rid).outputs.text.getD "" } } rfl
        refine ⟨?_, ?_, ?_, ?_⟩
        · intro s h
          simp only [blockStep] at h
          rw [if_pos hs] at h
          exact (h1.1 s h).elim
        · intro r s h
          simp only [blockStep] at h
          rw [if_pos hs] at h
          exact h1.2.2.1 r s h
        · intro err s h
          simp only [blockStep] at h
          rw [if_pos hs] at h
          exact (h1.2.1 err s h).elim
        · intro s h
          simp only [blockStep] at h
          rw [if_pos hs] at h
          exact h1.2.2.2 s h
      · refine ⟨?_, ?_, ?_, ?_⟩
        · intro s h
          simp only [blockStep] at h
          rw [if_neg hs] at h
          cases h
        · intro r s h
          simp only [blockStep] at h
          rw [if_neg hs] at h
          cases h
        · intro err s h
          simp only [blockStep] at h
          rw [if_neg hs] at h
          cases h
          rfl
        · intro s h
          simp only [blockStep] at h
          rw [if_neg hs] at h
          cases h
    | retrieverResources rs => simp [QueueEvent.benign, QueueEvent.isTerminalKind,
        QueueEvent.isErrorKind] at hb
    | annotationReply aid => simp [QueueEvent.benign, QueueEvent.isTerminalKind,
        QueueEvent.isErrorKind] at hb
    | workflowStarted rid => simp [QueueEvent.benign, QueueEvent.isTerminalKind,
        QueueEvent.isErrorKind] at hb
    | nodeStarted nid => simp [QueueEvent.benign, QueueEvent.isTerminalKind,
        QueueEvent.isErrorKind] at hb
    | nodeFinished nid => simp [QueueEvent.benign, QueueEvent.isTerminalKind,
        QueueEvent.isErrorKind] at hb
    | textChunk tOpt => simp [QueueEvent.benign, QueueEvent.isTerminalKind,
        QueueEvent.isErrorKind] at hb
    | messageFile fid => simp [QueueEvent.benign, QueueEvent.isTerminalKind,
        QueueEvent.isErrorKind] at hb
    | messageReplace t => simp [QueueEvent.benign, QueueEvent.isTerminalKind,
        QueueEvent.isErrorKind] at hb
    | ping => simp [QueueEvent.benign, QueueEvent.isTerminalKind,
        QueueEvent.isErrorKind] at hb

/-- The blocking dispatch loop saves at most one record beyond what the
entry state already holds, for every queue. -/
theorem blockLoop_saved_le (env : Env) (cfg : PipeConfig) :
    ∀ (q : List QueueEvent) (st : PipeSt),
    (blockLoop env cfg q st).state.saved.length ≤ st.saved.length + 1 := by
  intro q
  induction q with
  | nil =>
    intro st
    exact Nat.le_succ _
  | cons e rest ih =>
    intro st
    have hstep := blockStep_saved_le env cfg st e
    cases hso : blockStep env cfg st e with
    | next s =>
      have hred : blockLoop env cfg (e :: rest) st = blockLoop env cfg rest s := by
        simp [blockLoop, hso]
      rw [hred]
      have hle := ih s
      rw [hstep.1 s hso] at hle
      exact hle
    | finished r s =>
      have hred : blockLoop env cfg (e :: rest) st = { outcome := .ok r, state := s } := by
        simp [blockLoop, hso]
      rw [hred]
      exact hstep.2.1 r s hso
    | raisedErr err s =>
      have hred : blockLoop env cfg (e :: rest) st =
          { outcome := .raisedErr err, state := s } := by
        simp [blockLoop, hso]
      rw [hred]
      rw [show s.saved = st.saved from hstep.2.2.1 err s hso]
      exact Nat.le_succ _
    | raisedKeyError s =>
      have hred : blockLoop env cfg (e :: rest) st =
          { outcome := .raisedKeyError, state := s } := by
        simp [blockLoop, hso]
      rw [hred]
      exact hstep.2.2.2 s hso

/-- C2: finalization is never triggered twice for the same task, regardless
of the event sequence: in both modes the dispatch loop ends with the terminal
response (the blocking method returns there, and the listen() stream - which
the queue contract ends at the first terminal event - yields nothing
afterwards in streaming mode), so the save-message path runs at most once
even if both a Stop and a WorkflowFinished event are pushed. -/
theorem c2_finalization_at_most_once (env : Env) (cfg : PipeConfig)
    (h0 : Option OutputModerationSt) (es : List QueueEvent) :
    (runStream env cfg h0 es).saved.length ≤ 1 ∧
    (runBlock env cfg h0 es).state.saved.length ≤ 1 := by
  constructor
  · have hle := streamLoop_saved_le env cfg (2 * es.length + 8) es (initSt cfg h0)
    simpa [initSt] using hle
  · have hle := blockLoop_saved_le env cfg es (initSt cfg h0)
    simpa [initSt] using hle

/-- C3: for every event sequence in which an Error event arrives before any
terminal event, finalization is short-circuited in both modes: no message is
persisted and no moderation finalize call is made (only token appends ever
reach the handler); in streaming mode the rendered error frame - built from
the mapped exception - is emitted as the last frame of the stream, after
only non-error frames; in blocking mode the mapped exception is raised. -/
theorem c3_error_short_circuits
    (env : Env) (cfg : PipeConfig) (h0 : Option OutputModerationSt)
    (pre : List QueueEvent) (err : Err) (post : List QueueEvent)
    (hpre : pre.all QueueEvent.benign = true) :
    ((runStream env cfg h0 (pre ++ .error err :: post)).saved = [] ∧
     (∀ c ∈ (runStream env cfg h0 (pre ++ .error err :: post)).modTrace,
        c.isAppend = true) ∧
     (∃ fs, (runStream env cfg h0 (pre ++ .error err :: post)).frames =
        fs ++ [Frame.errorFrame
          (errorToStreamResponseData cfg.task_id cfg.message0.id (handleError err)).1] ∧
        fs.all Frame.notError = true)) ∧
    ((runBlock env cfg h0 (pre ++ .error err :: post)).outcome = .raisedErr (handleError err) ∧
     (runBlock env cfg h0 (pre ++ .error err :: post)).state.saved = [] ∧
     (∀ c ∈ (runBlock env cfg h0 (pre ++ .error err :: post)).state.modTrace,
        c.isAppend = true)) := by
  constructor
  · obtain ⟨extra, heq, hev⟩ := streamLoop_clean env cfg pre
      ((pre.length + 2 * post.length + 9) + 1) (initSt cfg h0) (.error err :: post) hpre
    obtain ⟨st', hst'⟩ : ∃ x, x = streamFold env cfg pre (initSt cfg h0) := ⟨_, rfl⟩
    rw [← hst'] at heq hev
    obtain ⟨hes, hen, hec, _, _, ⟨fs, hfr, hfra⟩, ⟨tr, htr, htra⟩⟩ := hev
    have hrun : runStream env cfg h0 (pre ++ .error err :: post) =
        { st' with
          frames := st'.frames ++ [Frame.errorFrame
            (errorToStreamResponseData cfg.task_id st'.curMessage.id (handleError err)).1]
          logs := st'.logs ++
            (errorToStreamResponseData cfg.task_id st'.curMessage.id (handleError err)).2.toList } := by
      unfold runStream
      have hfuel : 2 * (pre ++ .error err :: post).length + 8 =
          pre.length + ((pre.length + 2 * post.length + 9) + 1) := by
        simp [List.length_append]
        ring
      rw [hfuel, heq]
      show streamLoop env cfg ((pre.length + 2 * post.length + 9) + 1)
        (QueueEvent.error err :: (post ++ extra)) st' = _
      simp [streamLoop, streamStep]
    refine ⟨?_, ?_, ?_⟩
    · rw [hrun]
      show st'.saved = []
      rw [hes]
      rfl
    · rw [hrun]
      show ∀ c ∈ st'.modTrace, c.isAppend = true
      rw [htr]
      intro c hc
      rcases List.mem_append.1 hc with hc | hc
      · simp [initSt] at hc
      · exact List.all_eq_true.1 htra c hc
    · rw [hrun]
      show ∃ fs0, st'.frames ++ _ = fs0 ++ _ ∧ fs0.all Frame.notError = true
      refine ⟨st'.frames, ?_, ?_⟩
      · rw [hec]
        rfl
      · rw [hfr]
        have : (initSt cfg h0).frames = [] := rfl
        rw [this]
        simpa using hfra
  · obtain ⟨heq, hes, hen, hec, _, _, _, ⟨tr, htr, htra⟩⟩ :=
      blockLoop_clean env cfg pre (initSt cfg h0) (.error err :: post) hpre
    obtain ⟨st', hst'⟩ : ∃ x, x = blockFold env cfg pre (initSt cfg h0) := ⟨_, rfl⟩
    rw [← hst'] at heq hes hen hec htr
    have hrun : runBlock env cfg h0 (pre ++ .error err :: post) =
        { outcome := .raisedErr (handleError err), state := st' } := by
      unfold runBlock
      rw [heq]
      simp [blockLoop, blockStep]
    rw [hrun]
    refine ⟨rfl, ?_, ?_⟩
    · show st'.saved = []
      rw [hes]
      rfl
    · show ∀ c ∈ st'.modTrace, c.isAppend = true
      rw [htr]
      intro c hc
      rcases List.mem_append.1 hc with hc | hc
      · simp [initSt] at hc
      · exact List.all_eq_true.1 htra c hc

/-- Witness for C3 at a concrete input: a lone Error event with a moderation
handler configured; no record is saved and the blocking call raises the
mapped exception. -/
theorem c3_witness :
    (runStream env0 cfg0 (some hNever)
        ([] ++ QueueEvent.error (Err.generic "boom" none) :: [])).saved = [] ∧
    (runBlock env0 cfg0 (some hNever)
        ([] ++ QueueEvent.error (Err.generic "boom" none) :: [])).outcome
      = .raisedErr (handleError (Err.generic "boom" none)) :=
  ⟨(c3_error_short_circuits env0 cfg0 (some hNever) [] (Err.generic "boom" none) [] rfl).1.1,
   (c3_error_short_circuits env0 cfg0 (some hNever) [] (Err.generic "boom" none) [] rfl).2.1⟩

/-- C7: every error cause outside the known taxonomy is rendered - through
the error handler and formatter the streaming path composes - as exactly the
internal_server_error envelope with status 500 and the fixed support
message, while the cause itself is logged and nothing of it surfaces in the
envelope; and every rendered envelope, for any cause, carries event "error",
the task id and the message id. -/
theorem c7_unknown_causes_render_internal_error (task_id message_id : String) (e : Err) :
    (e.inTaxonomy = false →
      errorToStreamResponseData task_id message_id (handleError e) =
        ({ event := "error", task_id := task_id, message_id := message_id,
           code := "internal_server_error",
           message := internalServerErrorMessage, status := 500 },
         some ((handleError e).str))) ∧
    (errorToStreamResponseData task_id message_id (handleError e)).1.event = "error" ∧
    (errorToStreamResponseData task_id message_id (handleError e)).1.task_id = task_id ∧
    (errorToStreamResponseData task_id message_id (handleError e)).1.message_id = message_id := by
  cases e <;> refine ⟨?_, rfl, rfl, rfl⟩ <;> intro h
  all_goals first
    | rfl
    | simp [Err.inTaxonomy] at h

/-- Witness for C7: a generic cause carrying a description; the envelope is
the fixed internal_server_error one. -/
theorem c7_witness :
    errorToStreamResponseData "T1" "M1" (handleError (Err.generic "boom" (some "detail"))) =
      ({ event := "error", task_id := "T1", message_id := "M1",
         code := "internal_server_error",
         message := internalServerErrorMessage, status := 500 },
       some ((handleError (Err.generic "boom" (some "detail"))).str)) :=
  (c7_unknown_causes_render_internal_error "T1" "M1" (Err.generic "boom" (some "detail"))).1
    (by decide)

/-- C6: response metadata is gated by the invocation channel: for a
privileged channel (debugger or service API) with a usage entry recorded,
retriever resources pass through in full, a collected annotation reply is
included, and the usage entry is included; for any other channel retriever
resources are projected to exactly the five public fields, the annotation
reply is omitted, and usage is omitted. -/
theorem c6_metadata_privilege_gate (md : TSMetadata) (f : InvokeFrom) :
    (isPrivileged f = true → ∀ u, md.usage = some u →
      getResponseMetadata md f = .ok
        { retriever_resources := md.retriever_resources.map RenderedRR.full,
          annotation_reply := md.annotation_reply,
          usage := some u }) ∧
    (isPrivileged f = false →
      getResponseMetadata md f = .ok
        { retriever_resources := md.retriever_resources.map
            (fun rs => RenderedRR.projected (rs.map projectResource)),
          annotation_reply := none,
          usage := none }) := by
  constructor
  · intro hp u hu
    unfold getResponseMetadata
    rw [hp, hu]
    simp
  · intro hp
    unfold getResponseMetadata
    rw [hp]
    simp

/-- Witness for C6: one collected resource and annotation, compared between
the debugger channel and the web-app channel. -/
theorem c6_witness :
    getResponseMetadata md0 InvokeFrom.debugger
      = .ok { retriever_resources := some (.full [rr0]),
              annotation_reply := some arm0,
              usage := some (some {}) } ∧
    getResponseMetadata md0 InvokeFrom.webApp
      = .ok { retriever_resources := some (.projected [projectResource rr0]),
              annotation_reply := none,
              usage := none } :=
  ⟨(c6_metadata_privilege_gate md0 .debugger).1 rfl (some {}) rfl,
   (c6_metadata_privilege_gate md0 .webApp).2 rfl⟩

/-- C10: for a privileged caller, rendering the terminal response metadata
performs an unconditional lookup of the usage key: if the metadata misses it,
rendering raises KeyError; consequently, when the task metadata is non-empty
but without usage, the message_end step aborts the generator instead of
emitting the frame - shown generally and on a concrete streaming run (only
retriever resources collected, debugger channel), where the message was
nevertheless already saved. -/
theorem c10_privileged_metadata_requires_usage :
    (∀ (md : TSMetadata) (f : InvokeFrom), isPrivileged f = true → md.usage = none →
      getResponseMetadata md f = .error ()) ∧
    (∀ (cfg : PipeConfig) (st : PipeSt), isPrivileged cfg.invoke_from = true →
      st.taskState.metadata.usage = none → st.taskState.metadata.nonempty = true →
      endMessageSt cfg st = { st with keyErrored := true }) ∧
    ((runStream env0 cfg0 none
        [QueueEvent.retrieverResources [rr0], QueueEvent.stop .userManual]).keyErrored = true ∧
     (runStream env0 cfg0 none
        [QueueEvent.retrieverResources [rr0], QueueEvent.stop .userManual]).frames.all
          (fun f => !f.isMessageEnd) = true ∧
     (runStream env0 cfg0 none
        [QueueEvent.retrieverResources [rr0], QueueEvent.stop .userManual]).saved.length = 1) := by
  have hA : ∀ (md : TSMetadata) (f : InvokeFrom), isPrivileged f = true → md.usage = none →
      getResponseMetadata md f = .error () := by
    intro md f hp hu
    unfold getResponseMetadata
    rw [hp, hu]
    simp
  refine ⟨hA, ?_, by decide, by decide, by decide⟩
  intro cfg st hp hu hne
  unfold endMessageSt
  rw [hne, if_pos rfl, hA st.taskState.metadata cfg.invoke_from hp hu]

/-- Witness for C10: the privileged debugger channel with retriever
resources collected but no usage key raises KeyError in rendering. -/
theorem c10_witness :
    getResponseMetadata md1 InvokeFrom.debugger = .error () :=
  c10_privileged_metadata_requires_usage.1 md1 InvokeFrom.debugger rfl rfl

/-- Counterexample for C9: with a moderation handler configured, a task that
aborts via an Error event never calls stop on the handler - the error branch
of the streaming dispatch loop breaks without stopping the background
activity, contradicting the claim that stop is called on every task ending. -/
theorem c9_counterexample :
    ModCall.stopThread ∉
      (runStream env0 cfg0 (some hNever)
        [QueueEvent.error (Err.generic "boom" none)]).modTrace := by
  decide

/-- C9 amended: when a moderation handler exists, the streaming dispatcher
calls stop exactly once, at finalization, immediately before the single
moderation finalize call (only token appends precede them); but on an Error
abort the dispatch loop exits without calling stop, so the background
activity is not stopped on the error path. -/
theorem c9_amended_stop_before_finalize_not_on_error :
    (∀ (env : Env) (cfg : PipeConfig) (h : OutputModerationSt) (pre : List QueueEvent)
      (t : QueueEvent), pre.all QueueEvent.benign = true → TerminalOk env t →
      ∃ tr a, (runStream env cfg (some h) (pre ++ [t])).modTrace =
          tr ++ [.stopThread, .moderationCompletionCall a] ∧
        tr.all ModCall.isAppend = true) ∧
    (∀ (env : Env) (cfg : PipeConfig) (h : OutputModerationSt) (pre : List QueueEvent)
      (err : Err) (post : List QueueEvent), pre.all QueueEvent.benign = true →
      ModCall.stopThread ∉
        (runStream env cfg (some h) (pre ++ .error err :: post)).modTrace) := by
  constructor
  · intro env cfg h pre t hpre ht
    obtain ⟨stt, hrun, _, _, _, hmodall, hhand⟩ :=
      runStream_term_spec env cfg (some h) pre t hpre ht
    rw [hrun, (finishStream_spec env cfg stt).2.2.2]
    cases hh : stt.handler with
    | none =>
      rw [hh] at hhand
      cases hhand
    | some h' =>
      refine ⟨stt.modTrace, stt.taskState.answer, ?_, hmodall⟩
      rw [(moderateFinishStream_spec cfg stt).2.2.2.2.2.2.2, hh]
  · intro env cfg h pre err post hpre
    obtain ⟨extra, heq, hev⟩ := streamLoop_clean env cfg pre
      ((pre.length + 2 * post.length + 9) + 1) (initSt cfg (some h)) (.error err :: post) hpre
    obtain ⟨st', hst'⟩ : ∃ x, x = streamFold env cfg pre (initSt cfg (some h)) := ⟨_, rfl⟩
    rw [← hst'] at heq hev
    obtain ⟨_, _, _, _, _, _, ⟨tr, htr, htra⟩⟩ := hev
    have hrun : runStream env cfg (some h) (pre ++ .error err :: post) =
        { st' with
          frames := st'.frames ++ [Frame.errorFrame
            (errorToStreamResponseData cfg.task_id st'.curMessage.id (handleError err)).1]
          logs := st'.logs ++
            (errorToStreamResponseData cfg.task_id st'.curMessage.id (handleError err)).2.toList } := by
      unfold runStream
      have hfuel : 2 * (pre ++ .error err :: post).length + 8 =
          pre.length + ((pre.length + 2 * post.length + 9) + 1) := by
        simp [List.length_append]
        ring
      rw [hfuel, heq]
      show streamLoop env cfg ((pre.length + 2 * post.length + 9) + 1)
        (QueueEvent.error err :: (post ++ extra)) st' = _
      simp [streamLoop, streamStep]
    rw [hrun]
    show ModCall.stopThread ∉ st'.modTrace
    rw [htr]
    intro hmem
    rcases List.mem_append.1 hmem with hmem | hmem
    · simp [initSt] at hmem
    · have hap := List.all_eq_true.1 htra _ hmem
      simp [ModCall.isAppend] at hap

/-- Witness for C9 amended: stop immediately precedes the finalize call on a
Stop-terminated run, and is absent from an Error-aborted run. -/
theorem c9_witness :
    (∃ tr a, (runStream env0 cfg0 (some hNever)
        ([] ++ [QueueEvent.stop .userManual])).modTrace =
          tr ++ [.stopThread, .moderationCompletionCall a] ∧
        tr.all ModCall.isAppend = true) ∧
    ModCall.stopThread ∉
      (runStream env0 cfg0 (some hNever)
        ([] ++ QueueEvent.error (Err.generic "x" none) :: [])).modTrace :=
  ⟨c9_amended_stop_before_finalize_not_on_error.1 env0 cfg0 hNever [] (.stop .userManual)
      rfl (.inl ⟨_, rfl⟩),
   c9_amended_stop_before_finalize_not_on_error.2 env0 cfg0 hNever []
      (Err.generic "x" none) [] rfl⟩

/-- A streaming run over a clean prefix ending in a Stop event is the
finalization tail applied to the folded prefix state. -/
theorem runStream_stop_eq (env : Env) (cfg : PipeConfig)
    (h0 : Option OutputModerationSt) (pre : List QueueEvent) (sb : StopBy)
    (hpre : pre.all QueueEvent.benign = true) :
    runStream env cfg h0 (pre ++ [QueueEvent.stop sb]) =
      finishStream env cfg (streamFold env cfg pre (initSt cfg h0)) := by
  obtain ⟨extra, heq, _⟩ :=
    streamLoop_clean env cfg pre (pre.length + 9 + 1) (initSt cfg h0)
      [QueueEvent.stop sb] hpre
  unfold runStream
  have hfuel : 2 * (pre ++ [QueueEvent.stop sb]).length + 8
      = pre.length + (pre.length + 9 + 1) := by
    simp [List.length_append]
    ring
  rw [hfuel, heq]
  show streamLoop env cfg (pre.length + 9 + 1) (QueueEvent.stop sb :: extra)
    (streamFold env cfg pre (initSt cfg h0)) = _
  simp [streamLoop, streamStep]

/-- Moderation finalization only appends frames. -/
theorem moderateFinishStream_frames (cfg : PipeConfig) (st : PipeSt) :
    ∃ a, (moderateFinishStream cfg st).frames = st.frames ++ a := by
  cases hh : st.handler with
  | none => exact ⟨[], by simp [moderateFinishStream, hh]⟩
  | some h =>
    exact ⟨[Frame.messageReplaceFrame cfg.task_id st.curMessage.id cfg.conversation_id
        (moderationCompletion h st.taskState.answer) st.curMessage.created_at],
      by simp [moderateFinishStream, hh]⟩

/-- The message_end step only appends frames. -/
theorem endMessageSt_frames (cfg : PipeConfig) (st : PipeSt) :
    ∃ a, (endMessageSt cfg st).frames = st.frames ++ a := by
  unfold endMessageSt
  split
  · split
    · exact ⟨[], by simp⟩
    · exact ⟨[_], rfl⟩
  · exact ⟨[_], rfl⟩

/-- The whole finalization tail only appends frames. -/
theorem finishStream_frames_mono (env : Env) (cfg : PipeConfig) (st : PipeSt) :
    ∃ a, (finishStream env cfg st).frames = st.frames ++ a := by
  obtain ⟨a1, h1⟩ := moderateFinishStream_frames cfg st
  obtain ⟨a2, h2⟩ := endMessageSt_frames cfg (saveMessageSt env cfg (moderateFinishStream cfg st))
  refine ⟨a1 ++ a2, ?_⟩
  show (endMessageSt cfg (saveMessageSt env cfg (moderateFinishStream cfg st))).frames = _
  rw [h2]
  show (moderateFinishStream cfg st).frames ++ a2 = _
  rw [h1, List.append_assoc]

/-- The finalization tail ignores the frames already emitted: its task state
and its saved records do not depend on them. -/
theorem finishStream_frames_irrel (env : Env) (cfg : PipeConfig) (st : PipeSt)
    (fr : List Frame) :
    (finishStream env cfg { st with frames := fr }).taskState =
      (finishStream env cfg st).taskState ∧
    (finishStream env cfg { st with frames := fr }).saved =
      (finishStream env cfg st).saved := by
  have h1 := finishStream_spec env cfg { st with frames := fr }
  have h2 := finishStream_spec env cfg st
  constructor
  · rw [h1.2.2.1, h2.2.2.1]
    cases hh : st.handler <;> simp [moderateFinishStream, hh]
  · rw [h1.1, h2.1]
    cases hh : st.handler <;> simp [moderateFinishStream, hh]

/-- Counterexample for C8: processing a MessageReplace event does not set
the TaskState answer - after [MessageReplace "X", Stop] the final answer is
the empty string, not "X", in both modes, even though the streaming frame
carrying "X" was emitted. -/
theorem c8_counterexample :
    (runStream env0 cfg0 none
      [QueueEvent.messageReplace "X", QueueEvent.stop .userManual]).taskState.answer = "" ∧
    (runBlock env0 cfg0 none
      [QueueEvent.messageReplace "X", QueueEvent.stop .userManual]).state.taskState.answer = "" ∧
    Frame.messageReplaceFrame "T1" "M1" "C1" "X" 77 ∈
      (runStream env0 cfg0 none
        [QueueEvent.messageReplace "X", QueueEvent.stop .userManual]).frames ∧
    ("" : String) ≠ "X" := by
  decide

/-- C8 amended: a MessageReplace event leaves the task state - and therefore
the persisted record - unchanged in both modes: inserting it before the
terminal Stop changes neither the final task state nor the saved records; in
streaming mode it only emits a message_replace frame carrying the event's
text verbatim, and the blocking dispatcher skips the event entirely. -/
theorem c8_amended_message_replace_frame_only
    (env : Env) (cfg : PipeConfig) (h0 : Option OutputModerationSt)
    (pre : List QueueEvent) (txt : String) (sb : StopBy)
    (hpre : pre.all QueueEvent.benign = true) :
    (runStream env cfg h0 (pre ++ [.messageReplace txt, .stop sb])).taskState =
      (runStream env cfg h0 (pre ++ [.stop sb])).taskState ∧
    (runStream env cfg h0 (pre ++ [.messageReplace txt, .stop sb])).saved =
      (runStream env cfg h0 (pre ++ [.stop sb])).saved ∧
    Frame.messageReplaceFrame cfg.task_id cfg.message0.id cfg.conversation_id txt
        cfg.message0.created_at ∈
      (runStream env cfg h0 (pre ++ [.messageReplace txt, .stop sb])).frames ∧
    (∀ st : PipeSt, blockStep env cfg st (.messageReplace txt) = .next st) := by
  have hpre' : (pre ++ [QueueEvent.messageReplace txt]).all QueueEvent.benign = true := by
    rw [List.all_append, hpre]
    rfl
  have hsplit : pre ++ [QueueEvent.messageReplace txt, QueueEvent.stop sb] =
      (pre ++ [QueueEvent.messageReplace txt]) ++ [QueueEvent.stop sb] := by
    rw [List.append_assoc]
    rfl
  obtain ⟨_, _, hec, _, _, _, _⟩ :=
    (streamLoop_clean env cfg pre 0 (initSt cfg h0) [] hpre).choose_spec.2
  have hA : runStream env cfg h0 (pre ++ [.messageReplace txt, .stop sb]) =
      finishStream env cfg
        (streamFold env cfg (pre ++ [QueueEvent.messageReplace txt]) (initSt cfg h0)) := by
    rw [hsplit]
    exact runStream_stop_eq env cfg h0 (pre ++ [QueueEvent.messageReplace txt]) sb hpre'
  have hB : runStream env cfg h0 (pre ++ [.stop sb]) =
      finishStream env cfg (streamFold env cfg pre (initSt cfg h0)) := by
    exact runStream_stop_eq env cfg h0 pre sb hpre
  have hfold : streamFold env cfg (pre ++ [QueueEvent.messageReplace txt]) (initSt cfg h0) =
      { streamFold env cfg pre (initSt cfg h0) with
        frames := (streamFold env cfg pre (initSt cfg h0)).frames ++
          [Frame.messageReplaceFrame cfg.task_id
            (streamFold env cfg pre (initSt cfg h0)).curMessage.id cfg.conversation_id txt
            (streamFold env cfg pre (initSt cfg h0)).curMessage.created_at] } := by
    unfold streamFold
    rw [List.foldl_append]
    rfl
  have hirr := finishStream_frames_irrel env cfg (streamFold env cfg pre (initSt cfg h0))
    ((streamFold env cfg pre (initSt cfg h0)).frames ++
      [Frame.messageReplaceFrame cfg.task_id
        (streamFold env cfg pre (initSt cfg h0)).curMessage.id cfg.conversation_id txt
        (streamFold env cfg pre (initSt cfg h0)).curMessage.created_at])
  refine ⟨?_, ?_, ?_, fun st => rfl⟩
  · rw [hA, hB, hfold]
    exact hirr.1
  · rw [hA, hB, hfold]
    exact hirr.2
  · rw [hA, hfold]
    obtain ⟨a, hfr⟩ := finishStream_frames_mono env cfg
      { streamFold env cfg pre (initSt cfg h0) with
        frames := (streamFold env cfg pre (initSt cfg h0)).frames ++
          [Frame.messageReplaceFrame cfg.task_id
            (streamFold env cfg pre (initSt cfg h0)).curMessage.id cfg.conversation_id txt
            (streamFold env cfg pre (initSt cfg h0)).curMessage.created_at] }
    rw [hfr]
    show _ ∈ ((streamFold env cfg pre (initSt cfg h0)).frames ++ _) ++ a
    rw [hec]
    show Frame.messageReplaceFrame cfg.task_id cfg.message0.id cfg.conversation_id txt
        cfg.message0.created_at ∈
      ((streamFold env cfg pre (initSt cfg h0)).frames ++
        [Frame.messageReplaceFrame cfg.task_id cfg.message0.id cfg.conversation_id txt
          cfg.message0.created_at]) ++ a
    exact List.mem_append.2 (.inl (List.mem_append.2 (.inr (List.mem_singleton.2 rfl))))

/-- Witness for C8 amended at a concrete input. -/
theorem c8_witness :
    (runStream env0 cfg0 none ([] ++ [.messageReplace "X", .stop .userManual])).taskState =
      (runStream env0 cfg0 none ([] ++ [.stop .userManual])).taskState ∧
    (runStream env0 cfg0 none ([] ++ [.messageReplace "X", .stop .userManual])).saved =
      (runStream env0 cfg0 none ([] ++ [.stop .userManual])).saved ∧
    Frame.messageReplaceFrame cfg0.task_id cfg0.message0.id cfg0.conversation_id "X"
        cfg0.message0.created_at ∈
      (runStream env0 cfg0 none ([] ++ [.messageReplace "X", .stop .userManual])).frames ∧
    (∀ st : PipeSt, blockStep env0 cfg0 st (.messageReplace "X") = .next st) :=
  c8_amended_message_replace_frame_only env0 cfg0 none [] "X" .userManual rfl

/-- One benign event preserves the blocking/streaming simulation: both
dispatchers continue, their metadata bags stay equal, and neither handler
starts flipping to direct output. -/
theorem stepSim (env : Env) (cfg : PipeConfig) (bs ss : PipeSt) (e : QueueEvent)
    (he : e.benign = true) (hrel : SimRel bs ss) :
    ∃ bs' ss', blockStep env cfg bs e = .next bs' ∧ streamStep env cfg ss e = .next ss' ∧
      SimRel bs' ss' := by
  obtain ⟨hmd, hbh, hsh⟩ := hrel
  cases e with
  | error e => simp [QueueEvent.benign, QueueEvent.isErrorKind] at he
  | stop sb => simp [QueueEvent.benign, QueueEvent.isTerminalKind] at he
  | workflowFinished rid => simp [QueueEvent.benign, QueueEvent.isTerminalKind] at he
  | workflowStarted rid => exact ⟨_, _, rfl, rfl, hmd, hbh, hsh⟩
  | nodeStarted nid => exact ⟨_, _, rfl, rfl, hmd, hbh, hsh⟩
  | nodeFinished nid =>
    refine ⟨_, _, rfl, rfl, ?_, hbh, hsh⟩
    show (if _ then _ else bs.taskState).metadata = (if _ then _ else ss.taskState).metadata
    by_cases hc : (getNodeExec env nid).status = succeededStatus ∧
        (getNodeExec env nid).node_type = llmNodeType
    · rw [if_pos hc, if_pos hc]
      show ({ bs.taskState.metadata with usage := _ } : TSMetadata) = _
      rw [hmd]
    · rw [if_neg hc, if_neg hc]
      exact hmd
  | retrieverResources rs =>
    refine ⟨_, _, rfl, rfl, ?_, hbh, hsh⟩
    show ({ bs.taskState.metadata with retriever_resources := some rs } : TSMetadata) = _
    rw [hmd]
  | annotationReply aid =>
    simp only [blockStep, streamStep]
    cases ha : env.annotations aid with
    | none =>
      exact ⟨bs, ss, rfl, rfl, hmd, hbh, hsh⟩
    | some a =>
      refine ⟨_, _, rfl, rfl, ?_, hbh, hsh⟩
      show ({ bs.taskState.metadata with annotation_reply := _ } : TSMetadata) = _
      rw [hmd]
  | messageFile fid => exact ⟨_, _, rfl, rfl, hmd, hbh, hsh⟩
  | textChunk tOpt =>
    cases tOpt with
    | none => exact ⟨bs, ss, rfl, rfl, hmd, hbh, hsh⟩
    | some t =>
      simp only [streamStep]
      cases hh : ss.handler with
      | none =>
        refine ⟨bs, _, rfl, rfl, hmd, hbh, ?_⟩
        intro h2 heq
        cases heq
      | some h =>
        have hd0 : shouldDirectOutput h = false := hsh h hh h.checks
        have hd : ¬ shouldDirectOutput h = true := by
          simp [hd0]
        simp only [hd, if_false]
        refine ⟨bs, _, rfl, rfl, hmd, hbh, ?_⟩
        intro h2 heq i
        cases heq
        exact hsh h hh i
  | messageReplace t => exact ⟨_, _, rfl, rfl, hmd, hbh, hsh⟩
  | ping => exact ⟨_, _, rfl, rfl, hmd, hbh, hsh⟩

/-- The simulation relation is preserved across a clean queue segment. -/
theorem foldSim (env : Env) (cfg : PipeConfig) :
    ∀ (es : List QueueEvent) (bs ss : PipeSt),
    es.all QueueEvent.benign = true → SimRel bs ss →
    SimRel (blockFold env cfg es bs) (streamFold env cfg es ss) := by
  intro es
  induction es with
  | nil =>
    intro bs ss _ hrel
    exact hrel
  | cons e es ih =>
    intro bs ss hall hrel
    rw [List.all_cons, Bool.and_eq_true] at hall
    obtain ⟨bs', ss', hbe, hse, hrel'⟩ := stepSim env cfg bs ss e hall.1 hrel
    have hb : blockFold env cfg (e :: es) bs = blockFold env cfg es bs' := by
      show blockFold env cfg es (blockStep env cfg bs e).stOf = _
      rw [hbe]
      rfl
    have hs : streamFold env cfg (e :: es) ss = streamFold env cfg es ss' := by
      show streamFold env cfg es (streamStep env cfg ss e).stOf = _
      rw [hse]
      rfl
    rw [hb, hs]
    exact ih bs' ss' hall.2 hrel'

/-- A streaming run over a clean prefix ending in a succeeded
WorkflowFinished is the finalization tail applied to the folded prefix state
with the answer overwritten from the run outputs (and the workflow_finished
frame appended). -/
theorem runStream_wfok_eq (env : Env) (cfg : PipeConfig)
    (h0 : Option OutputModerationSt) (pre : List QueueEvent) (rid : String)
    (hpre : pre.all QueueEvent.benign = true)
    (hs : (getWorkflowRun env rid).status = succeededStatus) :
    ∃ fr, runStream env cfg h0 (pre ++ [QueueEvent.workflowFinished rid]) =
      finishStream env cfg
        { streamFold env cfg pre (initSt cfg h0) with
          taskState := { (streamFold env cfg pre (initSt cfg h0)).taskState with
            answer := (getWorkflowRun env rid).outputs_dict.text.getD "" }
          frames := fr } := by
  obtain ⟨extra, heq, _⟩ := streamLoop_clean env cfg pre (pre.length + 9 + 1) (initSt cfg h0)
    [QueueEvent.workflowFinished rid] hpre
  refine ⟨(streamFold env cfg pre (initSt cfg h0)).frames ++
    [Frame.workflowFinishedFrame cfg.task_id rid
      { id := (getWorkflowRun env rid).id,
        workflow_id := (getWorkflowRun env rid).workflow_id,
        status := (getWorkflowRun env rid).status,
        outputs := (getWorkflowRun env rid).outputs_dict,
        error := (getWorkflowRun env rid).error,
        elapsed_time := (getWorkflowRun env rid).elapsed_time,
        total_tokens := (getWorkflowRun env rid).total_tokens,
        total_steps := (getWorkflowRun env rid).total_steps,
        created_at := (getWorkflowRun env rid).created_at,
        finished_at := (getWorkflowRun env rid).finished_at }], ?_⟩
  unfold runStream
  have hfuel : 2 * (pre ++ [QueueEvent.workflowFinished rid]).length + 8
      = pre.length + (pre.length + 9 + 1) := by
    simp [List.length_append]
    ring
  rw [hfuel, heq]
  show streamLoop env cfg (pre.length + 9 + 1) (QueueEvent.workflowFinished rid :: extra)
    (streamFold env cfg pre (initSt cfg h0)) = _
  simp only [streamLoop, streamStep, hs, eq_self_iff_true, if_true]

/-- A blocking run over a clean prefix ending in a Stop event: the final
task state is the moderation-finalized folded prefix state, and the outcome
is the aggregated response carrying that answer unless metadata rendering
raises KeyError. -/
theorem runBlock_stop_eq (env : Env) (cfg : PipeConfig)
    (h0 : Option OutputModerationSt) (pre : List QueueEvent) (sb : StopBy)
    (hpre : pre.all QueueEvent.benign = true) :
    (runBlock env cfg h0 (pre ++ [QueueEvent.stop sb])).state.taskState =
      (moderateFinishBlock (blockFold env cfg pre (initSt cfg h0))).taskState ∧
    ((∃ r, (runBlock env cfg h0 (pre ++ [QueueEvent.stop sb])).outcome = .ok r ∧
        r.answer =
          (moderateFinishBlock (blockFold env cfg pre (initSt cfg h0))).taskState.answer) ∨
      (runBlock env cfg h0 (pre ++ [QueueEvent.stop sb])).outcome = .raisedKeyError) := by
  obtain ⟨heq, _⟩ := blockLoop_clean env cfg pre (initSt cfg h0) [QueueEvent.stop sb] hpre
  have hrun : runBlock env cfg h0 (pre ++ [QueueEvent.stop sb]) =
      blockLoop env cfg [QueueEvent.stop sb] (blockFold env cfg pre (initSt cfg h0)) := heq
  rcases blockResponseOf_shape cfg
      (saveMessageSt env cfg (moderateFinishBlock (blockFold env cfg pre (initSt cfg h0)))) with
    ⟨r, hfin, hans⟩ | hkey
  · have hred : blockLoop env cfg [QueueEvent.stop sb] (blockFold env cfg pre (initSt cfg h0)) =
        { outcome := .ok r,
          state := saveMessageSt env cfg
            (moderateFinishBlock (blockFold env cfg pre (initSt cfg h0))) } := by
      simp only [blockLoop]
      rw [show blockStep env cfg (blockFold env cfg pre (initSt cfg h0)) (QueueEvent.stop sb)
        = _ from hfin]
    rw [hrun, hred]
    exact ⟨rfl, .inl ⟨r, rfl, hans⟩⟩
  · have hred : blockLoop env cfg [QueueEvent.stop sb] (blockFold env cfg pre (initSt cfg h0)) =
        { outcome := .raisedKeyError,
          state := { saveMessageSt env cfg
            (moderateFinishBlock (blockFold env cfg pre (initSt cfg h0))) with
              keyErrored := true } } := by
      simp only [blockLoop]
      rw [show blockStep env cfg (blockFold env cfg pre (initSt cfg h0)) (QueueEvent.stop sb)
        = _ from hkey]
    rw [hrun, hred]
    exact ⟨rfl, .inr rfl⟩

/-- A blocking run over a clean prefix ending in a succeeded
WorkflowFinished: as for Stop, but the answer is first overwritten from the
run outputs. -/
theorem runBlock_wfok_eq (env : Env) (cfg : PipeConfig)
    (h0 : Option OutputModerationSt) (pre : List QueueEvent) (rid : String)
    (hpre : pre.all QueueEvent.benign = true)
    (hs : (getWorkflowRun env rid).status = succeededStatus) :
    (runBlock env cfg h0 (pre ++ [QueueEvent.workflowFinished rid])).state.taskState =
      (moderateFinishBlock
        { blockFold env cfg pre (initSt cfg h0) with
          taskState := { (blockFold env cfg pre (initSt cfg h0)).taskState with
            answer := (getWorkflowRun env rid).outputs.text.getD "" } }).taskState ∧
    ((∃ r, (runBlock env cfg h0 (pre ++ [QueueEvent.workflowFinished rid])).outcome = .ok r ∧
        r.answer = (moderateFinishBlock
          { blockFold env cfg pre (initSt cfg h0) with
            taskState := { (blockFold env cfg pre (initSt cfg h0)).taskState with
              answer := (getWorkflowRun env rid).outputs.text.getD "" } }).taskState.answer) ∨
      (runBlock env cfg h0 (pre ++ [QueueEvent.workflowFinished rid])).outcome
        = .raisedKeyError) := by
  obtain ⟨heq, _⟩ :=
    blockLoop_clean env cfg pre (initSt cfg h0) [QueueEvent.workflowFinished rid] hpre
  have hrun : runBlock env cfg h0 (pre ++ [QueueEvent.workflowFinished rid]) =
      blockLoop env cfg [QueueEvent.workflowFinished rid]
        (blockFold env cfg pre (initSt cfg h0)) := heq
  have hstep : blockStep env cfg (blockFold env cfg pre (initSt cfg h0))
      (QueueEvent.workflowFinished rid) =
      finishBlock env cfg
        { blockFold env cfg pre (initSt cfg h0) with
          taskState := { (blockFold env cfg pre (initSt cfg h0)).taskState with
            answer := (getWorkflowRun env rid).outputs.text.getD "" } } := by
    simp only [blockStep, hs, eq_self_iff_true, if_true]
  rcases blockResponseOf_shape cfg
      (saveMessageSt env cfg (moderateFinishBlock
        { blockFold env cfg pre (initSt cfg h0) with
          taskState := { (blockFold env cfg pre (initSt cfg h0)).taskState with
            answer := (getWorkflowRun env rid).outputs.text.getD "" } })) with
    ⟨r, hfin, hans⟩ | hkey
  · have hred : blockLoop env cfg [QueueEvent.workflowFinished rid]
        (blockFold env cfg pre (initSt cfg h0)) =
        { outcome := .ok r,
          state := saveMessageSt env cfg (moderateFinishBlock
            { blockFold env cfg pre (initSt cfg h0) with
              taskState := { (blockFold env cfg pre (initSt cfg h0)).taskState with
                answer := (getWorkflowRun env rid).outputs.text.getD "" } }) } := by
      simp only [blockLoop]
      rw [hstep]
      rw [show finishBlock env cfg
        { blockFold env cfg pre (initSt cfg h0) with
          taskState := { (blockFold env cfg pre (initSt cfg h0)).taskState with
            answer := (getWorkflowRun env rid).outputs.text.getD "" } } = _ from hfin]
    rw [hrun, hred]
    exact ⟨rfl, .inl ⟨r, rfl, hans⟩⟩
  · have hred : blockLoop env cfg [QueueEvent.workflowFinished rid]
        (blockFold env cfg pre (initSt cfg h0)) =
        { outcome := .raisedKeyError,
          state := { saveMessageSt env cfg (moderateFinishBlock
            { blockFold env cfg pre (initSt cfg h0) with
              taskState := { (blockFold env cfg pre (initSt cfg h0)).taskState with
                answer := (getWorkflowRun env rid).outputs.text.getD "" } }) with
              keyErrored := true } } := by
      simp only [blockLoop]
      rw [hstep]
      rw [show finishBlock env cfg
        { blockFold env cfg pre (initSt cfg h0) with
          taskState := { (blockFold env cfg pre (initSt cfg h0)).taskState with
            answer := (getWorkflowRun env rid).outputs.text.getD "" } } = _ from hkey]
    rw [hrun, hred]
    exact ⟨rfl, .inr rfl⟩

/-- With a handler that never flips to direct output, the blocking
moderation finalize leaves the answer unchanged. -/
theorem moderateFinishBlock_answer_neverDirect (st : PipeSt)
    (hnd : NeverDirect st.handler) :
    (moderateFinishBlock st).taskState.answer = st.taskState.answer := by
  rw [(moderateFinishBlock_spec st).2.2.2.2.2.2.1]
  cases hh : st.handler with
  | none => rfl
  | some h =>
    show moderationCompletion h st.taskState.answer = _
    unfold moderationCompletion
    rw [hnd h hh h.checks, if_neg Bool.false_ne_true]

/-- With a handler that never flips to direct output, the streaming
moderation finalize leaves the answer unchanged. -/
theorem moderateFinishStream_answer_neverDirect (cfg : PipeConfig) (st : PipeSt)
    (hnd : NeverDirect st.handler) :
    (moderateFinishStream cfg st).taskState.answer = st.taskState.answer := by
  rw [(moderateFinishStream_spec cfg st).2.2.2.2.2.2.1]
  cases hh : st.handler with
  | none => rfl
  | some h =>
    show moderationCompletion h st.taskState.answer = _
    unfold moderationCompletion
    rw [hnd h hh h.checks, if_neg Bool.false_ne_true]

/-- Counterexample for C4: on the same input sequence
[TextChunk "Hi", Stop], with no moderation handler, streaming mode ends with
answer "Hi" while blocking mode - whose dispatcher skips TextChunk events
entirely - returns answer "", so the two modes do not agree on the final
answer. -/
theorem c4_counterexample :
    (runStream env0 cfg0 none
      [QueueEvent.textChunk (some "Hi"), QueueEvent.stop .userManual]).taskState.answer
      = "Hi" ∧
    (runBlock env0 cfg0 none
      [QueueEvent.textChunk (some "Hi"), QueueEvent.stop .userManual]).outcome.answerOf
      = some "" ∧
    ("Hi" : String) ≠ "" := by
  decide

/-- C4 amended: over any clean prefix followed by an Ok terminal event, with
a moderation configuration that never flips to direct output, the two modes
agree on the final metadata bag; and when the terminal event is a succeeded
WorkflowFinished - where both modes overwrite the answer from the run
outputs - they also agree on the final answer. (They can disagree on the
answer for Stop-terminated sequences, since the blocking dispatcher ignores
TextChunk events; see the counterexample.) -/
theorem c4_amended_modes_agree
    (env : Env) (cfg : PipeConfig) (h0 : Option OutputModerationSt)
    (pre : List QueueEvent) (t : QueueEvent)
    (hpre : pre.all QueueEvent.benign = true) (ht : TerminalOk env t)
    (hnd : NeverDirect h0) :
    (runBlock env cfg h0 (pre ++ [t])).state.taskState.metadata =
      (runStream env cfg h0 (pre ++ [t])).taskState.metadata ∧
    (∀ rid, t = QueueEvent.workflowFinished rid →
      (runBlock env cfg h0 (pre ++ [t])).state.taskState.answer =
        (runStream env cfg h0 (pre ++ [t])).taskState.answer) := by
  have hsim := foldSim env cfg pre (initSt cfg h0) (initSt cfg h0) hpre ⟨rfl, hnd, hnd⟩
  obtain ⟨hmd, hbnd, hsnd⟩ := hsim
  rcases ht with ⟨sb, rfl⟩ | ⟨rid, rfl, hs⟩
  · obtain ⟨hbt, _⟩ := runBlock_stop_eq env cfg h0 pre sb hpre
    have hst := runStream_stop_eq env cfg h0 pre sb hpre
    constructor
    · rw [hbt, hst, (finishStream_spec env cfg _).2.2.1,
        (moderateFinishBlock_spec _).2.2.2.2.1,
        (moderateFinishStream_spec cfg _).2.2.2.2.1]
      exact hmd
    · intro rid h
      cases h
  · obtain ⟨hbt, _⟩ := runBlock_wfok_eq env cfg h0 pre rid hpre hs
    obtain ⟨fr, hstr⟩ := runStream_wfok_eq env cfg h0 pre rid hpre hs
    constructor
    · rw [hbt, hstr, (finishStream_spec env cfg _).2.2.1,
        (moderateFinishBlock_spec _).2.2.2.2.1,
        (moderateFinishStream_spec cfg _).2.2.2.2.1]
      exact hmd
    · intro rid' h
      cases h
      have h1 : (runBlock env cfg h0 (pre ++ [QueueEvent.workflowFinished rid])).state.taskState.answer
          = (getWorkflowRun env rid).outputs.text.getD "" := by
        rw [hbt]
        exact moderateFinishBlock_answer_neverDirect _ hbnd
      have h2 : (runStream env cfg h0 (pre ++ [QueueEvent.workflowFinished rid])).taskState.answer
          = (getWorkflowRun env rid).outputs_dict.text.getD "" := by
        rw [hstr, (finishStream_spec env cfg _).2.2.1]
        exact moderateFinishStream_answer_neverDirect cfg _ hsnd
      rw [h1, h2]
      rfl

/-- A text chunk processed while the direct-output flag is down: the token
is appended to the answer, the buffer and the frame stream, and the check
counter advances. -/
theorem streamStep_chunk_noflip (env : Env) (cfg : PipeConfig) (st : PipeSt)
    (h : OutputModerationSt) (c : String)
    (hh : st.handler = some h) (hd : h.sched h.checks = false) :
    streamStep env cfg st (QueueEvent.textChunk (some c)) = .next
      { st with
        taskState := { st.taskState with answer := st.taskState.answer ++ c }
        handler := some { h with checks := h.checks + 1, buffer := h.buffer ++ c }
        modTrace := st.modTrace ++ [.appendNewToken c]
        frames := st.frames ++
          [.messageFrame st.curMessage.id cfg.task_id st.curMessage.id cfg.conversation_id c
            st.curMessage.created_at] } := by
  have hd' : ¬ shouldDirectOutput h = true := by
    simp [shouldDirectOutput, hd]
  simp only [streamStep]
  rw [hh]
  simp [hd']

/-- A text chunk processed while the direct-output flag is up: the answer is
overwritten with the final output, the synthetic replacement chunk and stop
event are published back onto the queue, nothing is emitted, and the check
counter advances. -/
theorem streamStep_chunk_flip (env : Env) (cfg : PipeConfig) (st : PipeSt)
    (h : OutputModerationSt) (c : String)
    (hh : st.handler = some h) (hd : h.sched h.checks = true) :
    streamStep env cfg st (QueueEvent.textChunk (some c)) = .nextPublish
      { st with
        taskState := { st.taskState with answer := h.finalOutput }
        handler := some { h with checks := h.checks + 1 }
        published := st.published ++
          [QueueEvent.textChunk (some h.finalOutput), QueueEvent.stop .outputModeration] }
      [QueueEvent.textChunk (some h.finalOutput), QueueEvent.stop .outputModeration] := by
  have hd' : shouldDirectOutput h = true := hd
  simp only [streamStep]
  rw [hh]
  simp [hd']

/-- The finalization tail publishes nothing back onto the queue. -/
theorem finishStream_published (env : Env) (cfg : PipeConfig) (st : PipeSt) :
    (finishStream env cfg st).published = st.published := by
  unfold finishStream
  have he : forall s : PipeSt, (endMessageSt cfg s).published = s.published := by
    intro s
    unfold endMessageSt
    split
    · split <;> rfl
    · rfl
  rw [he]
  show (moderateFinishStream cfg st).published = st.published
  cases hh : st.handler <;> simp [moderateFinishStream, hh]

/-- The finalization tail in the direct-output scenario: with the handler
present, the direct-output flag up at the pending check and an empty metadata
dict, it overwrites the answer with the final output, appends exactly one
saved record carrying it, publishes nothing, and appends exactly a
message_replace frame carrying the final output followed by a message_end
frame without metadata. -/
theorem finishStream_flip_shape (env : Env) (cfg : PipeConfig) (st : PipeSt)
    (h2 : OutputModerationSt)
    (hh : st.handler = some h2) (hs : h2.sched h2.checks = true)
    (hmd : st.taskState.metadata = ({} : TSMetadata)) :
    (finishStream env cfg st).taskState.answer = h2.finalOutput ∧
    (∃ m, (finishStream env cfg st).saved = st.saved ++ [m] ∧
      m.answer = h2.finalOutput) ∧
    (finishStream env cfg st).published = st.published ∧
    (finishStream env cfg st).frames = st.frames ++
      [Frame.messageReplaceFrame cfg.task_id st.curMessage.id cfg.conversation_id
        h2.finalOutput st.curMessage.created_at,
       Frame.messageEndFrame cfg.task_id st.curMessage.id st.curMessage.id
        cfg.conversation_id none] := by
  have hmc : moderationCompletion h2 st.taskState.answer = h2.finalOutput := by
    simp [moderationCompletion, hs]
  have hans := (moderateFinishStream_spec cfg st).2.2.2.2.2.2.1
  rw [hh] at hans
  refine ⟨?_, ?_, finishStream_published env cfg st, ?_⟩
  · have h1 : (finishStream env cfg st).taskState.answer
        = (moderateFinishStream cfg st).taskState.answer := by
      rw [(finishStream_spec env cfg st).2.2.1]
    exact h1.trans (hans.trans hmc)
  · refine ⟨savedMessageOf env st.curMessage.id (moderateFinishStream cfg st).taskState,
      (finishStream_spec env cfg st).1, ?_⟩
    exact (savedMessageOf_main env st.curMessage.id
      (moderateFinishStream cfg st).taskState).1.trans (hans.trans hmc)
  · have hfr1 : (moderateFinishStream cfg st).frames = st.frames ++
        [Frame.messageReplaceFrame cfg.task_id st.curMessage.id cfg.conversation_id
          h2.finalOutput st.curMessage.created_at] := by
      simp [moderateFinishStream, hh, hmc]
    have hfr2 : (saveMessageSt env cfg (moderateFinishStream cfg st)).frames
        = (moderateFinishStream cfg st).frames := rfl
    have hid2 : (saveMessageSt env cfg (moderateFinishStream cfg st)).curMessage.id
        = st.curMessage.id := by
      have hA : (saveMessageSt env cfg (moderateFinishStream cfg st)).curMessage
          = savedMessageOf env (moderateFinishStream cfg st).curMessage.id
              (moderateFinishStream cfg st).taskState := rfl
      rw [hA,
        (savedMessageOf_main env (moderateFinishStream cfg st).curMessage.id
          (moderateFinishStream cfg st).taskState).2.2.2.1,
        (moderateFinishStream_spec cfg st).2.2.1]
    have hmd2 : (saveMessageSt env cfg (moderateFinishStream cfg st)).taskState.metadata
        = ({} : TSMetadata) := by
      show (moderateFinishStream cfg st).taskState.metadata = _
      rw [(moderateFinishStream_spec cfg st).2.2.2.2.1, hmd]
    have hnon : (saveMessageSt env cfg
        (moderateFinishStream cfg st)).taskState.metadata.nonempty = false := by
      rw [hmd2]
      rfl
    have hend : (endMessageSt cfg (saveMessageSt env cfg (moderateFinishStream cfg st))).frames
        = (saveMessageSt env cfg (moderateFinishStream cfg st)).frames ++
          [Frame.messageEndFrame cfg.task_id
            (saveMessageSt env cfg (moderateFinishStream cfg st)).curMessage.id
            (saveMessageSt env cfg (moderateFinishStream cfg st)).curMessage.id
            cfg.conversation_id none] := by
      unfold endMessageSt
      rw [hnon, if_neg Bool.false_ne_true]
    show (endMessageSt cfg (saveMessageSt env cfg (moderateFinishStream cfg st))).frames = _
    rw [hend, hfr2, hfr1, hid2]
    simp

/-- A run of text chunks processed while the direct-output flag stays down
only accumulates: the loop continues on the remaining queue with the handler
advanced by one check per chunk and the bookkeeping lists untouched. -/
theorem streamLoop_chunks_noflip (env : Env) (cfg : PipeConfig) :
    ∀ (cs : List String) (st : PipeSt) (h : OutputModerationSt)
      (tail : List QueueEvent) (fuel : Nat),
      st.handler = some h →
      (∀ j, j < cs.length → h.sched (h.checks + j) = false) →
      ∃ st1 h1,
        streamLoop env cfg (fuel + cs.length) (ChunkEvents cs ++ tail) st
          = streamLoop env cfg fuel tail st1 ∧
        st1.handler = some h1 ∧
        h1.sched = h.sched ∧
        h1.finalOutput = h.finalOutput ∧
        h1.checks = h.checks + cs.length ∧
        st1.saved = st.saved ∧
        st1.curMessage = st.curMessage ∧
        st1.published = st.published ∧
        st1.taskState.metadata = st.taskState.metadata
  | [], st, h, _, fuel, hh, _ =>
    ⟨st, h, rfl, hh, rfl, rfl, rfl, rfl, rfl, rfl, rfl⟩
  | c :: cs, st, h, tail, fuel, hh, hsched => by
    have hd0 : h.sched h.checks = false := by
      have h0 := hsched 0 (by simp)
      simpa using h0
    have hstep := streamStep_chunk_noflip env cfg st h c hh hd0
    have hloop : streamLoop env cfg (fuel + (c :: cs).length)
        (ChunkEvents (c :: cs) ++ tail) st
        = streamLoop env cfg (fuel + cs.length) (ChunkEvents cs ++ tail)
          { st with
            taskState := { st.taskState with answer := st.taskState.answer ++ c }
            handler := some { h with checks := h.checks + 1, buffer := h.buffer ++ c }
            modTrace := st.modTrace ++ [.appendNewToken c]
            frames := st.frames ++
              [.messageFrame st.curMessage.id cfg.task_id st.curMessage.id
                cfg.conversation_id c st.curMessage.created_at] } := by
      show streamLoop env cfg ((fuel + cs.length) + 1)
        (QueueEvent.textChunk (some c) :: (ChunkEvents cs ++ tail)) st = _
      simp only [streamLoop]
      rw [hstep]
    obtain ⟨st1, h1, heq, hh1, hs1, hf1, hc1, hsv, hcm, hpb, hmd⟩ :=
      streamLoop_chunks_noflip env cfg cs
        { st with
          taskState := { st.taskState with answer := st.taskState.answer ++ c }
          handler := some { h with checks := h.checks + 1, buffer := h.buffer ++ c }
          modTrace := st.modTrace ++ [.appendNewToken c]
          frames := st.frames ++
            [.messageFrame st.curMessage.id cfg.task_id st.curMessage.id
              cfg.conversation_id c st.curMessage.created_at] }
        { h with checks := h.checks + 1, buffer := h.buffer ++ c }
        tail fuel rfl
        (by
          intro j hj
          show h.sched (h.checks + 1 + j) = false
          have e : h.checks + 1 + j = h.checks + (j + 1) := by omega
          rw [e]
          exact hsched (j + 1) (Nat.succ_lt_succ hj))
    refine ⟨st1, h1, hloop.trans heq, hh1, hs1, hf1, ?_, hsv, hcm, hpb, hmd⟩
    have hc1' : h1.checks = h.checks + 1 + cs.length := hc1
    show h1.checks = h.checks + (cs.length + 1)
    omega

/-- Once every pending check of the handler is scheduled to direct output,
processing the remaining chunks followed by the synthetic replacement chunk
and stop event ends the loop through the finalization tail: every chunk
republishes the synthetic pair, the answer is pinned to the final output and
the bookkeeping lists are untouched. -/
theorem streamLoop_flip (env : Env) (cfg : PipeConfig) :
    ∀ (rest : List String) (st : PipeSt) (h : OutputModerationSt)
      (junk : List QueueEvent) (fuel : Nat),
      st.handler = some h →
      (∀ i, h.checks ≤ i → h.sched i = true) →
      rest.length + 2 ≤ fuel →
      ∃ stF t h2,
        streamLoop env cfg fuel
          (ChunkEvents rest ++
            QueueEvent.textChunk (some h.finalOutput) ::
              QueueEvent.stop .outputModeration :: junk) st
          = finishStream env cfg stF ∧
        stF.taskState = { st.taskState with answer := h.finalOutput } ∧
        stF.handler = some h2 ∧
        h2.sched = h.sched ∧
        h2.finalOutput = h.finalOutput ∧
        h.checks ≤ h2.checks ∧
        stF.published = st.published ++
          QueueEvent.textChunk (some h.finalOutput) ::
            QueueEvent.stop .outputModeration :: t ∧
        stF.frames = st.frames ∧
        stF.saved = st.saved ∧
        stF.curMessage = st.curMessage
  | [], st, h, junk, fuel, hh, hall, hfuel => by
    have hf2 : 2 ≤ fuel := hfuel
    obtain ⟨f, rfl⟩ : ∃ f, fuel = f + 1 + 1 := ⟨fuel - 2, by omega⟩
    have hstep := streamStep_chunk_flip env cfg st h h.finalOutput hh (hall h.checks le_rfl)
    refine ⟨{ st with
        taskState := { st.taskState with answer := h.finalOutput }
        handler := some { h with checks := h.checks + 1 }
        published := st.published ++
          [QueueEvent.textChunk (some h.finalOutput), QueueEvent.stop .outputModeration] },
      [], { h with checks := h.checks + 1 },
      ?_, rfl, rfl, rfl, rfl, Nat.le_succ _, rfl, rfl, rfl, rfl⟩
    show streamLoop env cfg (f + 1 + 1)
      (QueueEvent.textChunk (some h.finalOutput) ::
        QueueEvent.stop .outputModeration :: junk) st = _
    simp only [streamLoop]
    rw [hstep]
    rfl
  | c :: cs, st, h, junk, fuel, hh, hall, hfuel => by
    have hf' : cs.length + 1 + 2 ≤ fuel := hfuel
    obtain ⟨f, rfl⟩ : ∃ f, fuel = f + 1 := ⟨fuel - 1, by omega⟩
    have hstep := streamStep_chunk_flip env cfg st h c hh (hall h.checks le_rfl)
    obtain ⟨stF, t, h2, heq, hts, hh2, hs2, hf2, hle2, hpub, hfr, hsv, hcm⟩ :=
      streamLoop_flip env cfg cs
        { st with
          taskState := { st.taskState with answer := h.finalOutput }
          handler := some { h with checks := h.checks + 1 }
          published := st.published ++
            [QueueEvent.textChunk (some h.finalOutput), QueueEvent.stop .outputModeration] }
        { h with checks := h.checks + 1 }
        (junk ++ [QueueEvent.textChunk (some h.finalOutput), QueueEvent.stop .outputModeration])
        f rfl
        (fun i hi => hall i (Nat.le_of_succ_le hi))
        (by omega)
    refine ⟨stF, QueueEvent.textChunk (some h.finalOutput) ::
        QueueEvent.stop .outputModeration :: t, h2,
      ?_, hts, hh2, hs2, hf2, ?_, ?_, hfr, hsv, hcm⟩
    · show streamLoop env cfg (f + 1)
        (QueueEvent.textChunk (some c) ::
          (ChunkEvents cs ++
            QueueEvent.textChunk (some h.finalOutput) ::
              QueueEvent.stop .outputModeration :: junk)) st = finishStream env cfg stF
      simp only [streamLoop]
      rw [hstep]
      show streamLoop env cfg f
        ((ChunkEvents cs ++
          QueueEvent.textChunk (some h.finalOutput) ::
            QueueEvent.stop .outputModeration :: junk) ++
          [QueueEvent.textChunk (some h.finalOutput), QueueEvent.stop .outputModeration])
        { st with
          taskState := { st.taskState with answer := h.finalOutput }
          handler := some { h with checks := h.checks + 1 }
          published := st.published ++
            [QueueEvent.textChunk (some h.finalOutput), QueueEvent.stop .outputModeration] }
        = finishStream env cfg stF
      rw [List.append_assoc]
      exact heq
    · have hle2' : h.checks + 1 ≤ h2.checks := hle2
      omega
    · have hpub' : stF.published = (st.published ++
          [QueueEvent.textChunk (some h.finalOutput), QueueEvent.stop .outputModeration]) ++
          QueueEvent.textChunk (some h.finalOutput) ::
            QueueEvent.stop .outputModeration :: t := hpub
      rw [hpub']
      simp

/-- C5: when the moderation schedule directs output from the k-th check on
and the producer streams more than k text chunks, the dispatcher stops
accumulating chunks into the client-visible answer: the final answer is the
moderation final output, the single persisted record carries it, the
synthetic replacement chunk and stop event were published back onto the same
queue (so the run ends through the normal terminal path), and the emitted
frames end with a message_replace carrying the final output followed by the
closing message_end. -/
theorem c5_direct_output_redirects_stream (env : Env) (cfg : PipeConfig)
    (chunks : List String) (k : Nat) (F : String)
    (hk : k < chunks.length) :
    (runStream env cfg (some (flipHandler k F)) (ChunkEvents chunks)).taskState.answer = F ∧
    (∃ m, (runStream env cfg (some (flipHandler k F)) (ChunkEvents chunks)).saved = [m] ∧
      m.answer = F) ∧
    (∃ t, (runStream env cfg (some (flipHandler k F)) (ChunkEvents chunks)).published =
      QueueEvent.textChunk (some F) :: QueueEvent.stop .outputModeration :: t) ∧
    (∃ fr, (runStream env cfg (some (flipHandler k F)) (ChunkEvents chunks)).frames =
      fr ++
        [Frame.messageReplaceFrame cfg.task_id cfg.message0.id cfg.conversation_id F
          cfg.message0.created_at,
         Frame.messageEndFrame cfg.task_id cfg.message0.id cfg.message0.id
          cfg.conversation_id none]) := by
  obtain ⟨c, cs', hdk⟩ : ∃ c cs', chunks.drop k = c :: cs' := by
    cases hcd : chunks.drop k with
    | nil =>
      exfalso
      have hle := List.drop_eq_nil_iff.mp hcd
      omega
    | cons a l => exact ⟨a, l, rfl⟩
  have hsplit : chunks = chunks.take k ++ c :: cs' := by
    rw [← hdk]
    exact (List.take_append_drop k chunks).symm
  have htake : (chunks.take k).length = k := by
    rw [List.length_take]
    omega
  have hlen2 : chunks.length = k + (cs'.length + 1) := by
    conv_lhs => rw [hsplit]
    rw [List.length_append, htake]
    simp
  have hq : ChunkEvents chunks
      = ChunkEvents (chunks.take k) ++
        (QueueEvent.textChunk (some c) :: ChunkEvents cs') := by
    have hmap : ChunkEvents (chunks.take k ++ c :: cs')
        = ChunkEvents (chunks.take k) ++
          (QueueEvent.textChunk (some c) :: ChunkEvents cs') := by
      simp [ChunkEvents]
    rw [← hmap, ← hsplit]
  have hlc : (ChunkEvents chunks).length = chunks.length := by
    simp [ChunkEvents]
  have hfu : 2 * (ChunkEvents chunks).length + 8
      = (2 * chunks.length + 7 - k + 1) + (chunks.take k).length := by
    rw [hlc, htake]
    omega
  have hrun : runStream env cfg (some (flipHandler k F)) (ChunkEvents chunks)
      = streamLoop env cfg ((2 * chunks.length + 7 - k + 1) + (chunks.take k).length)
        (ChunkEvents (chunks.take k) ++ (QueueEvent.textChunk (some c) :: ChunkEvents cs'))
        (initSt cfg (some (flipHandler k F))) := by
    unfold runStream
    rw [hfu, hq]
  obtain ⟨st1, h1, heq1, hh1, hs1, hf1, hc1, hsv1, hcm1, hpb1, hmd1⟩ :=
    streamLoop_chunks_noflip env cfg (chunks.take k)
      (initSt cfg (some (flipHandler k F))) (flipHandler k F)
      (QueueEvent.textChunk (some c) :: ChunkEvents cs')
      (2 * chunks.length + 7 - k + 1) rfl
      (by
        intro j hj
        rw [htake] at hj
        show decide (k ≤ 0 + j) = false
        exact decide_eq_false (by omega))
  have hck : h1.checks = k := by
    have h0 := hc1
    rw [htake] at h0
    have h0' : h1.checks = 0 + k := h0
    omega
  have hd1 : h1.sched h1.checks = true := by
    rw [hs1, hck]
    show decide (k ≤ k) = true
    exact decide_eq_true le_rfl
  have hF1 : h1.finalOutput = F := by
    rw [hf1]
    rfl
  have hstep1 := streamStep_chunk_flip env cfg st1 h1 c hh1 hd1
  have hstep1eq : streamLoop env cfg (2 * chunks.length + 7 - k + 1)
      (QueueEvent.textChunk (some c) :: ChunkEvents cs') st1
      = streamLoop env cfg (2 * chunks.length + 7 - k)
        (ChunkEvents cs' ++
          [QueueEvent.textChunk (some h1.finalOutput), QueueEvent.stop .outputModeration])
        { st1 with
          taskState := { st1.taskState with answer := h1.finalOutput }
          handler := some { h1 with checks := h1.checks + 1 }
          published := st1.published ++
            [QueueEvent.textChunk (some h1.finalOutput), QueueEvent.stop .outputModeration] } := by
    simp only [streamLoop]
    rw [hstep1]
  obtain ⟨stF, t, h2, heq2, hts2, hh2x, hs2x, hf2x, hle2, hpub2, hfr2, hsv2, hcm2⟩ :=
    streamLoop_flip env cfg cs'
      { st1 with
        taskState := { st1.taskState with answer := h1.finalOutput }
        handler := some { h1 with checks := h1.checks + 1 }
        published := st1.published ++
          [QueueEvent.textChunk (some h1.finalOutput), QueueEvent.stop .outputModeration] }
      { h1 with checks := h1.checks + 1 }
      [] (2 * chunks.length + 7 - k) rfl
      (by
        intro i hi
        have hi' : h1.checks + 1 ≤ i := hi
        rw [hck] at hi'
        show h1.sched i = true
        rw [hs1]
        show decide (k ≤ i) = true
        exact decide_eq_true (by omega))
      (by omega)
  have hout : runStream env cfg (some (flipHandler k F)) (ChunkEvents chunks)
      = finishStream env cfg stF :=
    hrun.trans (heq1.trans (hstep1eq.trans heq2))
  have htsF : stF.taskState = { st1.taskState with answer := h1.finalOutput } := hts2
  have hmdF : stF.taskState.metadata = ({} : TSMetadata) := by
    rw [htsF]
    show st1.taskState.metadata = ({} : TSMetadata)
    rw [hmd1]
    rfl
  have hd2 : h2.sched h2.checks = true := by
    have hge : h1.checks + 1 ≤ h2.checks := hle2
    rw [hck] at hge
    have hs2' : h2.sched = h1.sched := hs2x
    rw [hs2', hs1]
    show decide (k ≤ h2.checks) = true
    exact decide_eq_true (by omega)
  have hF2 : h2.finalOutput = F := by
    have h0 : h2.finalOutput = h1.finalOutput := hf2x
    rw [h0, hF1]
  obtain ⟨hansF, ⟨m, hsvF, hmF⟩, hpubF, hfrF⟩ :=
    finishStream_flip_shape env cfg stF h2 hh2x hd2 hmdF
  have hsaved0 : stF.saved = ([] : List MessageRec) := by
    have hA : stF.saved = st1.saved := hsv2
    rw [hA]
    exact hsv1
  have hcmF : stF.curMessage = cfg.message0 := by
    have hA : stF.curMessage = st1.curMessage := hcm2
    rw [hA]
    exact hcm1
  refine ⟨?_, ⟨m, ?_, ?_⟩, ?_, ?_⟩
  · rw [hout, hansF, hF2]
  · rw [hout, hsvF, hsaved0]
    rfl
  · rw [hmF]
    exact hF2
  · refine ⟨QueueEvent.textChunk (some F) :: QueueEvent.stop .outputModeration :: t, ?_⟩
    have hpubS : stF.published = (st1.published ++
        [QueueEvent.textChunk (some h1.finalOutput), QueueEvent.stop .outputModeration]) ++
        QueueEvent.textChunk (some h1.finalOutput) ::
          QueueEvent.stop .outputModeration :: t := hpub2
    have hpb0 : st1.published = ([] : List QueueEvent) := hpb1
    rw [hout, hpubF, hpubS, hpb0, hF1]
    simp
  · refine ⟨stF.frames, ?_⟩
    rw [hout, hfrF, hcmF, hF2]

/-- Witness for C5 at a concrete input: three chunks with the flag scheduled
to flip from the second check on redirect the stream to "[redacted]". -/
theorem c5_witness :
    1 < (["a", "b", "c"] : List String).length ∧
    ((runStream env0 cfg0 (some (flipHandler 1 "[redacted]"))
        (ChunkEvents ["a", "b", "c"])).taskState.answer = "[redacted]" ∧
      (∃ m, (runStream env0 cfg0 (some (flipHandler 1 "[redacted]"))
          (ChunkEvents ["a", "b", "c"])).saved = [m] ∧
        m.answer = "[redacted]") ∧
      (∃ t, (runStream env0 cfg0 (some (flipHandler 1 "[redacted]"))
          (ChunkEvents ["a", "b", "c"])).published =
        QueueEvent.textChunk (some "[redacted]") ::
          QueueEvent.stop .outputModeration :: t) ∧
      (∃ fr, (runStream env0 cfg0 (some (flipHandler 1 "[redacted]"))
          (ChunkEvents ["a", "b", "c"])).frames =
        fr ++
          [Frame.messageReplaceFrame cfg0.task_id cfg0.message0.id cfg0.conversation_id
            "[redacted]" cfg0.message0.created_at,
           Frame.messageEndFrame cfg0.task_id cfg0.message0.id cfg0.message0.id
            cfg0.conversation_id none])) :=
  ⟨by decide,
    c5_direct_output_redirects_stream env0 cfg0 ["a", "b", "c"] 1 "[redacted]" (by decide)⟩

/-- Witness for C4 amended at a concrete input: a chunk followed by a
succeeded WorkflowFinished; both modes agree on metadata and on the final
answer. -/
theorem c4_witness :
    (runBlock env0 cfg0 none
      ([QueueEvent.textChunk (some "Hi")] ++ [QueueEvent.workflowFinished "R1"])).state.taskState.metadata =
      (runStream env0 cfg0 none
        ([QueueEvent.textChunk (some "Hi")] ++ [QueueEvent.workflowFinished "R1"])).taskState.metadata ∧
    (∀ rid, QueueEvent.workflowFinished "R1" = QueueEvent.workflowFinished rid →
      (runBlock env0 cfg0 none
        ([QueueEvent.textChunk (some "Hi")] ++ [QueueEvent.workflowFinished "R1"])).state.taskState.answer =
        (runStream env0 cfg0 none
          ([QueueEvent.textChunk (some "Hi")] ++ [QueueEvent.workflowFinished "R1"])).taskState.answer) :=
  c4_amended_modes_agree env0 cfg0 none [QueueEvent.textChunk (some "Hi")]
    (QueueEvent.workflowFinished "R1") rfl (.inr ⟨"R1", rfl, rfl⟩)
    (fun h hcon => by cases hcon)

end Dify
